import Mathlib

/-!
  # Locker + resource lock table subsystem — verification development

  A shallow embedding of the hierarchical lock manager (Locker, lock table,
  lock-mode lattice, deadlock detector, save/restore and the global-lock
  transplant protocol). The C++ implementation files (`lock_state.cpp`,
  `lock_manager.cpp`, `locker.h`) are not among the provided sources — only
  the unit-test file `src/mongo/db/concurrency/lock_state_test.cpp` is — so
  every operation below is modelled from the specification's description of
  the missing code, cross-checked against the concrete behaviours the test
  file asserts.

  Modelling conventions:
  * Time is abstracted away: deadlines are `Option Nat` (`none` = wait
    forever, `some d` = a finite deadline). The model is sequential, so a
    blocked request can only be granted by a later action of another
    locker; `lockComplete` on a still-blocked request therefore returns
    `LOCK_TIMEOUT` for any finite effective deadline and `LOCK_WAITING`
    (meaning: the caller would block indefinitely) for an infinite one.
  * Machine integers are `Nat` (no counter in this subsystem approaches
    overflow, and the spec treats them as mathematical counts).
  * All state mutation is explicit state passing over `LMState`.
-/

set_option linter.unusedVariables false

namespace LockMgr

/-- Modelled from the spec: the lock-mode lattice of §3 (the source file
defining `LockMode` is missing; only the test file is provided). -/
inductive LockMode : Type
  | MODE_NONE
  | MODE_IS
  | MODE_IX
  | MODE_S
  | MODE_X
deriving DecidableEq, Repr

open LockMode

/-- Modelled from the spec: request status ∈ {Waiting, Granted, Converting}
(§3, Lock Request). -/
inductive RequestStatus : Type
  | STATUS_GRANTED
  | STATUS_WAITING
  | STATUS_CONVERTING
deriving DecidableEq, Repr

open RequestStatus

/-- Modelled from the spec: resource categories (global, database,
collection) of the Resource Identifier (§3). -/
inductive ResourceType : Type
  | RESOURCE_GLOBAL
  | RESOURCE_DATABASE
  | RESOURCE_COLLECTION
deriving DecidableEq, Repr

open ResourceType

/-- Modelled from the spec: a Resource Identifier is a category plus a
name, equal iff both fields are equal (§3). Names are abstracted to `Nat`
(the C++ collapses a string to a hash). -/
structure ResourceId where
  rtype : ResourceType
  name : Nat
deriving DecidableEq, Repr

/-- The reserved singleton identifier for the global resource (§3). -/
def globalResId : ResourceId := ⟨RESOURCE_GLOBAL, 0⟩

/-- Modelled from the spec: results of an acquisition call. -/
inductive LockResult : Type
  | LOCK_OK
  | LOCK_TIMEOUT
  | LOCK_DEADLOCK
  | LOCK_WAITING
  | LOCK_INVALID
deriving DecidableEq, Repr

open LockResult

/-- Modelled from the spec: the fixed compatibility matrix of §3
(IS conflicts only with X; IX conflicts with S and X; S conflicts with IX
and X; X conflicts with everything). `MODE_NONE` is compatible with all. -/
def compatible : LockMode → LockMode → Bool
  | MODE_NONE, _ => true
  | _, MODE_NONE => true
  | MODE_IS, m => !(m == MODE_X)
  | MODE_IX, m => m == MODE_IS || m == MODE_IX
  | MODE_S, m => m == MODE_IS || m == MODE_S
  | MODE_X, _ => false

/-- Modelled from the spec: the "covers" relation — when a held mode
already satisfies a requested mode (§3): X covers everything, S covers
IS/S, IX covers IS/IX, and every mode covers None. -/
def covers : LockMode → LockMode → Bool
  | _, MODE_NONE => true
  | MODE_X, _ => true
  | MODE_S, m => m == MODE_IS || m == MODE_S
  | MODE_IX, m => m == MODE_IS || m == MODE_IX
  | MODE_IS, m => m == MODE_IS
  | MODE_NONE, _ => false

/-- Modelled from the spec: the least mode covering both arguments, the
target of a lock conversion (§4.1 `tryUpgrade`, glossary "conversion"). -/
def modeJoin : LockMode → LockMode → LockMode
  | MODE_NONE, m => m
  | m, MODE_NONE => m
  | MODE_X, _ => MODE_X
  | _, MODE_X => MODE_X
  | MODE_IS, m => m
  | m, MODE_IS => m
  | MODE_IX, MODE_IX => MODE_IX
  | MODE_IX, MODE_S => MODE_X
  | MODE_S, MODE_IX => MODE_X
  | MODE_S, MODE_S => MODE_S

/-- The five lock modes, for iterating the per-mode grant counts. -/
def allModes : List LockMode := [ MODE_NONE, MODE_IS, MODE_IX, MODE_S, MODE_X]

/-- Modelled from the spec: a Lock Request (§3) — owner, requested/granted
mode, conversion target, status, recursion count and the deferred-unlock
count accumulated under two-phase locking. -/
structure LockRequest where
  lockerId : Nat
  mode : LockMode
  convertMode : LockMode
  status : RequestStatus
  recursiveCount : Nat
  unlockPending : Nat
deriving DecidableEq, Repr

/-- Modelled from the spec: a Lock Head (§3) — per-resource granted list,
waiting (conflict) list, and per-mode grant counts used for O(1)
compatibility checks. A request being converted stays in the granted list
(it still holds its old mode) with status `STATUS_CONVERTING` and its
target in `convertMode`. -/
structure LockHead where
  resourceId : ResourceId
  grantedList : List LockRequest
  conflictList : List LockRequest
  grantedCounts : LockMode → Nat

/-- Modelled from the spec: a freshly created Lock Head, with no granted
and no waiting requests (§4.1 `acquire` creates one lazily; the transplant
test calls this `initNew`). -/
def LockHead.initNew (r : ResourceId) : LockHead :=
  ⟨r, [], [], fun _ => 0⟩

/-- Bump the per-mode grant count for `m`. -/
def incCount (c : LockMode → Nat) (m : LockMode) : LockMode → Nat :=
  fun m' => if m' == m then c m' + 1 else c m'

/-- Drop the per-mode grant count for `m`. -/
def decCount (c : LockMode → Nat) (m : LockMode) : LockMode → Nat :=
  fun m' => if m' == m then c m' - 1 else c m'

/-- Mode `m` is compatible with every request in `others` (used for the
self-excluded conversion check of §4.1 `tryUpgrade`). -/
def othersCompatible (others : List LockRequest) (m : LockMode) : Bool :=
  others.all fun q => compatible q.mode m && compatible m q.mode

/-- Matrix check of a requested mode against the non-zero per-mode grant
counts (§4.1 `acquire`). -/
def compatibleWithGrantedCounts (c : LockMode → Nat) (m : LockMode) : Bool :=
  allModes.all fun g => c g == 0 || compatible g m

/-- No pending conversion in the granted list conflicts with `m` (granting
`m` ahead of such a conversion would starve it, §4.1/§5). -/
def pendingConversionsOk (granted : List LockRequest) (m : LockMode) : Bool :=
  granted.all fun q =>
    !(q.status == STATUS_CONVERTING) || (compatible q.convertMode m && compatible m q.convertMode)

/-- No already-waiting request conflicts with `m` (FIFO fairness: a new
arrival queues behind conflicting waiters, §4.1/§5). -/
def noConflictingWaiters (conflict : List LockRequest) (m : LockMode) : Bool :=
  conflict.all fun q => compatible q.mode m && compatible m q.mode

/-- Modelled from the spec: `acquire` at the Lock Head (§4.1) — grant
immediately when the requested mode is compatible with the granted modes
(counts check), all pending conversion targets and all waiting modes;
otherwise append to the waiting list. -/
def newRequestHead (h : LockHead) (lid : Nat) (m : LockMode) : LockResult × LockHead :=
  if compatibleWithGrantedCounts h.grantedCounts m && pendingConversionsOk h.grantedList m
      && noConflictingWaiters h.conflictList m then
    (LOCK_OK, { h with
                grantedList := h.grantedList ++ [⟨lid, m, MODE_NONE, STATUS_GRANTED, 1, 0⟩],
                grantedCounts := incCount h.grantedCounts m })
  else
    (LOCK_WAITING, { h with
                     conflictList := h.conflictList ++ [⟨lid, m, MODE_NONE, STATUS_WAITING, 1, 0⟩] })

/-- Split a request list around the first request owned by `lid`. -/
def splitByLidAux (lid : Nat) (pre : List LockRequest) :
    List LockRequest → Option (List LockRequest × LockRequest × List LockRequest)
  | [] => none
  | q :: rest =>
    if q.lockerId == lid then some (pre, q, rest) else splitByLidAux lid (pre ++ [q]) rest

def splitByLid (lid : Nat) (l : List LockRequest) :
    Option (List LockRequest × LockRequest × List LockRequest) :=
  splitByLidAux lid [] l

/-- Modelled from the spec: `tryUpgrade` at the Lock Head (§4.1) — if the
conversion target is compatible with all *other* holders the request is
converted in place; otherwise it is marked Converting (keeping its old
grant) and takes priority over fresh arrivals. -/
def convertHead (h : LockHead) (lid : Nat) (newMode : LockMode) : LockResult × LockHead :=
  match splitByLid lid h.grantedList with
  | none => (LOCK_INVALID, h)
  | some (pre, q, post) =>
    let target := modeJoin q.mode newMode
    if othersCompatible (pre ++ post) target then
      (LOCK_OK, { h with
        grantedList := pre ++ ⟨q.lockerId, target, MODE_NONE, STATUS_GRANTED,
                               q.recursiveCount, q.unlockPending⟩ :: post,
        grantedCounts := incCount (decCount h.grantedCounts q.mode) target })
    else
      (LOCK_WAITING, { h with
        grantedList := pre ++ { q with status := STATUS_CONVERTING, convertMode := target } :: post })

/-- Finish a pending conversion: the request now holds its target mode. -/
def grantConv (q : LockRequest) : LockRequest :=
  { q with mode := q.convertMode, convertMode := MODE_NONE, status := STATUS_GRANTED }

/-- Find the first pending conversion whose target is compatible with all
other granted requests. -/
def findGrantableConvAux (pre : List LockRequest) :
    List LockRequest → Option (List LockRequest × LockRequest × List LockRequest)
  | [] => none
  | q :: rest =>
    if q.status == STATUS_CONVERTING && othersCompatible (pre ++ rest) q.convertMode then
      some (pre, q, rest)
    else findGrantableConvAux (pre ++ [q]) rest

/-- Grant pending conversions while any is grantable (conversions have
priority over fresh waiters, §4.1/§5). -/
def grantConvLoop : Nat → LockHead → LockHead
  | 0, h => h
  | fuel + 1, h =>
    match findGrantableConvAux [] h.grantedList with
    | none => h
    | some (pre, q, post) =>
      grantConvLoop fuel { h with
        grantedList := pre ++ grantConv q :: post,
        grantedCounts := incCount (decCount h.grantedCounts q.mode) q.convertMode }

/-- Grant the head of the waiting list repeatedly while compatibility
allows (§4.1 `release`: several compatible waiters are granted together). -/
def grantQueueGo (g : List LockRequest) (c : LockMode → Nat) :
    List LockRequest → List LockRequest × (LockMode → Nat) × List LockRequest
  | [] => (g, c, [])
  | q :: rest =>
    if compatibleWithGrantedCounts c q.mode && pendingConversionsOk g q.mode then
      grantQueueGo (g ++ [{ q with status := STATUS_GRANTED }]) (incCount c q.mode) rest
    else (g, c, q :: rest)

/-- Modelled from the spec: after any release/cancellation the Lock Head
grants whatever the change made grantable — pending conversions first,
then head-of-queue waiters while they remain compatible (§4.1, §5). -/
def scheduleWaiters (h : LockHead) : LockHead :=
  let h1 := grantConvLoop (h.grantedList.length + 1) h
  let r := grantQueueGo h1.grantedList h1.grantedCounts h1.conflictList
  { h1 with
    grantedList := r.1
    grantedCounts := r.2.1
    conflictList := r.2.2 }

/-- A Lock Head with no granted and no waiting requests is reclaimed
(§3 Lock Table). -/
def deleteIfEmpty (h : LockHead) : Option LockHead :=
  if h.grantedList.isEmpty && h.conflictList.isEmpty then none else some h

/-- Modelled from the spec: `release` at the Lock Head (§4.1) — remove the
request from the granted list, decrement counts, grant newly compatible
waiters, and reclaim the head if it became empty. -/
def releaseHead (h : LockHead) (lid : Nat) : Option LockHead :=
  match splitByLid lid h.grantedList with
  | none => some h
  | some (pre, q, post) =>
    deleteIfEmpty (scheduleWaiters { h with
      grantedList := pre ++ post, grantedCounts := decCount h.grantedCounts q.mode })

/-- Apply `f` to the requests owned by `lid` in both lists. -/
def mapRequests (lid : Nat) (f : LockRequest → LockRequest) (h : LockHead) : LockHead :=
  { h with
    grantedList := h.grantedList.map fun q => if q.lockerId == lid then f q else q,
    conflictList := h.conflictList.map fun q => if q.lockerId == lid then f q else q }

/-- Modelled from the spec: cancel a still-waiting request (timeout or
deadlock, §5): it is fully removed from the waiting list, and requests
queued behind it may become grantable. -/
def cancelWaitingHead (h : LockHead) (lid : Nat) : Option LockHead :=
  deleteIfEmpty (scheduleWaiters { h with
    conflictList := h.conflictList.filter fun q => !(q.lockerId == lid) })

/-- Modelled from the spec: cancel a pending conversion (timeout or
deadlock of an upgrade): the request reverts to its still-held granted
mode and the failed acquisition's recursion increment is undone. -/
def cancelConversionHead (h : LockHead) (lid : Nat) : LockHead :=
  scheduleWaiters (mapRequests lid
    (fun q => { q with
                status := STATUS_GRANTED
                convertMode := MODE_NONE
                recursiveCount := q.recursiveCount - 1 }) h)

/-! ## Locker state and the shared lock table -/

/-- Modelled from the spec: the per-Locker private bookkeeping (§3 Locker):
the ordered list of resources it references, the write-unit-of-work nesting
level (two-phase mode), whether shared locks also participate in two-phase
locking, the optional per-locker maximum wait override, and the count of
resources with deferred unlocks. -/
structure LockerData where
  held : List ResourceId
  wuowNestingLevel : Nat
  sharedLocksShouldTwoPhaseLock : Bool
  maxLockTimeout : Option Nat
  numResourcesToUnlockAtEndUnitOfWork : Nat
deriving DecidableEq, Repr

def LockerData.init : LockerData := ⟨[], 0, false, none, 0⟩

/-- Modelled from the spec: the whole in-process state — the shared Lock
Table (Resource Identifier → Lock Head, lazily created, reclaimed when
empty) plus every Locker's private bookkeeping. -/
structure LMState where
  heads : List (ResourceId × LockHead)
  lockers : List (Nat × LockerData)

def initialState : LMState := ⟨[], []⟩

def findHead (hs : List (ResourceId × LockHead)) (r : ResourceId) : Option LockHead :=
  (hs.find? fun p => p.1 == r).map (·.2)

/-- Replace (`some`), delete (`none`) or append the Lock Head for `r`. -/
def setHeadOpt (r : ResourceId) (new : Option LockHead) :
    List (ResourceId × LockHead) → List (ResourceId × LockHead)
  | [] =>
    match new with
    | none => []
    | some h => [(r, h)]
  | p :: rest =>
    if p.1 == r then
      match new with
      | none => rest
      | some h => (r, h) :: rest
    else p :: setHeadOpt r new rest

def writeHead (s : LMState) (r : ResourceId) (new : Option LockHead) : LMState :=
  { s with heads := setHeadOpt r new s.heads }

def getLocker (s : LMState) (lid : Nat) : LockerData :=
  ((s.lockers.find? fun p => p.1 == lid).map (·.2)).getD LockerData.init

def setLocker (lid : Nat) (d : LockerData) : List (Nat × LockerData) → List (Nat × LockerData)
  | [] => [(lid, d)]
  | p :: rest => if p.1 == lid then (lid, d) :: rest else p :: setLocker lid d rest

def updateLocker (s : LMState) (lid : Nat) (f : LockerData → LockerData) : LMState :=
  { s with lockers := setLocker lid (f (getLocker s lid)) s.lockers }

/-- The Lock Request this Locker owns on `r`, if any (a Locker has at most
one request per resource; it lives in the resource's Lock Head). -/
def getRequest (s : LMState) (lid : Nat) (r : ResourceId) : Option LockRequest :=
  (findHead s.heads r).bind fun h =>
    (h.grantedList ++ h.conflictList).find? fun q => q.lockerId == lid

/-- Modelled from the spec: `getLockMode` (§4.2) — the mode this Locker
currently holds `r` in (`MODE_NONE` if not held; a request still waiting
confers nothing; a converting request still holds its old mode). -/
def getLockMode (s : LMState) (lid : Nat) (r : ResourceId) : LockMode :=
  match getRequest s lid r with
  | some q => if q.status == STATUS_WAITING then MODE_NONE else q.mode
  | none => MODE_NONE

/-- Modelled from the spec: `isLockHeldForMode` (§4.2) — the held mode
covers the asked-about mode. -/
def isLockHeldForMode (s : LMState) (lid : Nat) (r : ResourceId) (m : LockMode) : Bool :=
  covers (getLockMode s lid r) m

/-- Modelled from the spec: `isLocked` — whether the global resource is
held at all. -/
def isLocked (s : LMState) (lid : Nat) : Bool :=
  !(getLockMode s lid globalResId == MODE_NONE)

/-- Apply a bookkeeping-only change to this Locker's request on `r`. -/
def modifyHeadRequest (s : LMState) (r : ResourceId) (lid : Nat)
    (f : LockRequest → LockRequest) : LMState :=
  match findHead s.heads r with
  | none => s
  | some h => writeHead s r (some (mapRequests lid f h))

def addHeld (s : LMState) (lid : Nat) (r : ResourceId) : LMState :=
  updateLocker s lid fun d => { d with held := d.held ++ [r] }

def removeHeld (s : LMState) (lid : Nat) (r : ResourceId) : LMState :=
  updateLocker s lid fun d => { d with held := d.held.filter fun x => !(x == r) }

/-! ## Locker acquisition / release API -/

/-- Modelled from the spec: `lockBegin` (§4.2) — register intent without
blocking. A request already covered is satisfied by bumping the recursion
count (no table contact); a request pending deferred unlock in a covering
mode is reused by cancelling one pending unlock; otherwise a conversion or
a fresh table acquisition is attempted. -/
def lockBegin (s : LMState) (lid : Nat) (r : ResourceId) (m : LockMode) : LockResult × LMState :=
  match getRequest s lid r with
  | some req =>
    if req.unlockPending > 0 && covers req.mode m then
      let s1 := modifyHeadRequest s r lid fun q => { q with unlockPending := q.unlockPending - 1 }
      let s2 := if req.unlockPending == 1 then
          updateLocker s1 lid fun d =>
            { d with numResourcesToUnlockAtEndUnitOfWork := d.numResourcesToUnlockAtEndUnitOfWork - 1 }
        else s1
      (LOCK_OK, s2)
    else if covers req.mode m then
      (LOCK_OK, modifyHeadRequest s r lid fun q => { q with recursiveCount := q.recursiveCount + 1 })
    else
      let s1 := modifyHeadRequest s r lid fun q => { q with recursiveCount := q.recursiveCount + 1 }
      match findHead s1.heads r with
      | none => (LOCK_INVALID, s1)
      | some h =>
        let rh := convertHead h lid m
        (rh.1, writeHead s1 r (some rh.2))
  | none =>
    let s1 := addHeld s lid r
    let h := (findHead s1.heads r).getD (LockHead.initNew r)
    let rh := newRequestHead h lid m
    (rh.1, writeHead s1 r (some rh.2))

/-! ### Deadlock detection -/

/-- The mode `lid` is waiting to obtain at this Lock Head, if any. -/
def waitingTarget (h : LockHead) (lid : Nat) : Option LockMode :=
  match h.conflictList.find? fun q => q.lockerId == lid with
  | some q => some q.mode
  | none =>
    match h.grantedList.find? fun q => q.lockerId == lid && q.status == STATUS_CONVERTING with
    | some q => some q.convertMode
    | none => none

/-- Waiters queued ahead of `lid` in a conflict list. -/
def waitersAhead (lid : Nat) : List LockRequest → List LockRequest
  | [] => []
  | q :: rest => if q.lockerId == lid then [] else q :: waitersAhead lid rest

/-- Modelled from the spec: the wait-for edges out of `lid` at one Lock
Head (§4.3) — the conflicting granted holders, plus conflicting waiters
queued ahead of it. -/
def blockersAtHead (h : LockHead) (lid : Nat) : List Nat :=
  match waitingTarget h lid with
  | none => []
  | some m =>
    ((h.grantedList.filter fun q =>
        !(q.lockerId == lid) && !(compatible q.mode m && compatible m q.mode)).map (·.lockerId))
      ++ ((waitersAhead lid h.conflictList).filter fun q =>
          !(compatible q.mode m && compatible m q.mode)).map (·.lockerId)

def blockersOf (s : LMState) (lid : Nat) : List Nat :=
  s.heads.foldr (fun p acc => blockersAtHead p.2 lid ++ acc) []

/-- Fuel-bounded reachability over the wait-for graph. -/
def reachesBack (s : LMState) (target : Nat) : Nat → List Nat → List Nat → Bool
  | 0, _, _ => false
  | _ + 1, _, [] => false
  | fuel + 1, visited, n :: rest =>
    if n == target then true
    else if visited.contains n then reachesBack s target fuel visited rest
    else reachesBack s target fuel (n :: visited) (blockersOf s n ++ rest)

def cycleFuel (s : LMState) : Nat :=
  (s.lockers.length + s.heads.length + 1) *
    (s.heads.foldr (fun p acc => p.2.grantedList.length + p.2.conflictList.length + acc) 0
      + s.lockers.length + 1)

/-- Modelled from the spec: the Deadlock Detector (§4.3) — a reachability
search from the blocked Locker over the wait-for graph; a cycle exists iff
the Locker can reach itself. -/
def hasCycle (s : LMState) (lid : Nat) : Bool :=
  reachesBack s lid (cycleFuel s) [] (blockersOf s lid)

/-- The caller-supplied deadline clamped by the per-Locker maximum wait
override (§4.2 `setMaxLockTimeout`): `none` means wait forever. -/
def combineDeadline (dl : Option Nat) (maxT : Option Nat) : Option Nat :=
  match maxT with
  | none => dl
  | some t =>
    match dl with
    | none => some t
    | some d => some (min d t)

/-- Cancel this Locker's pending (waiting or converting) request after a
timeout or deadlock: a waiting request is fully removed from the waiting
list (requests behind it may then be granted); a converting request
reverts to its still-held granted mode. -/
def cancelRequest (s : LMState) (lid : Nat) (r : ResourceId) (st : RequestStatus) : LMState :=
  match findHead s.heads r with
  | none => s
  | some h =>
    if st == STATUS_WAITING then
      removeHeld (writeHead s r (cancelWaitingHead h lid)) lid r
    else
      writeHead s r (some (cancelConversionHead h lid))

/-- Modelled from the spec: `lockComplete` (§4.2) — wait for the grant of a
registered request. Already granted: Ok. Otherwise, with deadlock checking
enabled and a wait-for cycle through this Locker: the caller's own request
is cancelled and Deadlock returned. Otherwise a finite effective deadline
(caller's, clamped by the per-Locker override) elapses: the request is
cancelled and Timeout returned. With an infinite effective deadline the
sequential model reports `LOCK_WAITING` (the caller would block). -/
def lockComplete (s : LMState) (lid : Nat) (r : ResourceId) (dl : Option Nat)
    (checkDeadlock : Bool) : LockResult × LMState :=
  match getRequest s lid r with
  | none => (LOCK_INVALID, s)
  | some req =>
    match req.status with
    | STATUS_GRANTED => (LOCK_OK, s)
    | st =>
      if checkDeadlock && hasCycle s lid then
        (LOCK_DEADLOCK, cancelRequest s lid r st)
      else
        match combineDeadline dl (getLocker s lid).maxLockTimeout with
        | some _ => (LOCK_TIMEOUT, cancelRequest s lid r st)
        | none => (LOCK_WAITING, s)

/-- Modelled from the spec: `lock` (§4.2) — the general blocking entry
point: `lockBegin`, then `lockComplete` when the request had to wait. -/
def lock (s : LMState) (lid : Nat) (r : ResourceId) (m : LockMode) (dl : Option Nat) :
    LockResult × LMState :=
  let rs := lockBegin s lid r m
  match rs.1 with
  | LOCK_WAITING => lockComplete rs.2 lid r dl false
  | res => (res, rs.2)

/-- Modelled from the spec: `lockGlobal` (§4.2) — acquire the global
resource (recursive calls bump the reentry counter). -/
def lockGlobal (s : LMState) (lid : Nat) (m : LockMode) : LockResult × LMState :=
  lock s lid globalResId m none

def lockGlobalBegin (s : LMState) (lid : Nat) (m : LockMode) (dl : Option Nat) :
    LockResult × LMState :=
  lockBegin s lid globalResId m

def lockGlobalComplete (s : LMState) (lid : Nat) (dl : Option Nat) : LockResult × LMState :=
  lockComplete s lid globalResId dl false

/-- Should this unlock be deferred to the end of the write unit of work
(§4.2 `unlock`): IX and X always participate in two-phase locking; IS and
S only when `setSharedLocksShouldTwoPhaseLock(true)` was called. -/
def shouldDelayUnlock (s : LMState) (lid : Nat) (m : LockMode) : Bool :=
  (m == MODE_IX || m == MODE_X)
    || ((getLocker s lid).sharedLocksShouldTwoPhaseLock && (m == MODE_IS || m == MODE_S))

/-- Release one recursion level for real: decrement the recursion count
and, on reaching zero, notify the table (release, grant waiters, reclaim
the head) and drop the resource from the Locker's bookkeeping. Returns
whether the lock was actually released. -/
def unlockImpl (s : LMState) (lid : Nat) (r : ResourceId) : Bool × LMState :=
  match getRequest s lid r with
  | none => (false, s)
  | some req =>
    if req.recursiveCount ≤ 1 then
      match findHead s.heads r with
      | none => (false, s)
      | some h => (true, removeHeld (writeHead s r (releaseHead h lid)) lid r)
    else
      (false, modifyHeadRequest s r lid fun q => { q with recursiveCount := q.recursiveCount - 1 })

/-- Modelled from the spec: `unlock` (§4.2) — inside a write unit of work a
release of a two-phase-locked mode is deferred (`unlockPending` bumped,
table untouched, returns false); otherwise one recursion level is released
immediately. -/
def unlock (s : LMState) (lid : Nat) (r : ResourceId) : Bool × LMState :=
  match getRequest s lid r with
  | none => (false, s)
  | some req =>
    if (getLocker s lid).wuowNestingLevel > 0 && shouldDelayUnlock s lid req.mode then
      let s1 := modifyHeadRequest s r lid fun q => { q with unlockPending := q.unlockPending + 1 }
      let s2 := if req.unlockPending == 0 then
          updateLocker s1 lid fun d =>
            { d with numResourcesToUnlockAtEndUnitOfWork := d.numResourcesToUnlockAtEndUnitOfWork + 1 }
        else s1
      (false, s2)
    else unlockImpl s lid r

/-- Modelled from the spec: `unlockGlobal` (§4.2) — `unlock` on the global
resource; must be called once per `lockGlobal` to fully release. -/
def unlockGlobal (s : LMState) (lid : Nat) : Bool × LMState :=
  unlock s lid globalResId

/-- Modelled from the spec: `beginWriteUnitOfWork` (§4.2) — enter (nest)
two-phase mode. -/
def beginWriteUnitOfWork (s : LMState) (lid : Nat) : LMState :=
  updateLocker s lid fun d => { d with wuowNestingLevel := d.wuowNestingLevel + 1 }

/-- Modelled from the spec: `endWriteUnitOfWork` (§4.2) — leave one nesting
level; on leaving the outermost scope every resource with nonzero
`unlockPending` is released exactly once per pending count and the counter
reset, regardless of the recursion count at that moment. -/
def endWriteUnitOfWork (s : LMState) (lid : Nat) : LMState :=
  let d := getLocker s lid
  if d.wuowNestingLevel == 0 then s
  else if d.wuowNestingLevel > 1 then
    updateLocker s lid fun d' => { d' with wuowNestingLevel := d'.wuowNestingLevel - 1 }
  else
    let s1 := updateLocker s lid fun d' =>
      { d' with wuowNestingLevel := 0, numResourcesToUnlockAtEndUnitOfWork := 0 }
    d.held.foldl (fun acc r =>
      match getRequest acc lid r with
      | none => acc
      | some req =>
        if req.unlockPending > 0 then
          let acc1 := modifyHeadRequest acc r lid fun q => { q with unlockPending := 0 }
          Nat.repeat (fun a => (unlockImpl a lid r).2) req.unlockPending acc1
        else acc) s1

/-- Modelled from the spec: `setSharedLocksShouldTwoPhaseLock` — opt
IS/S locks into two-phase locking. -/
def setSharedLocksShouldTwoPhaseLock (s : LMState) (lid : Nat) (b : Bool) : LMState :=
  updateLocker s lid fun d => { d with sharedLocksShouldTwoPhaseLock := b }

/-- Modelled from the spec: `setMaxLockTimeout` (§4.2) — clamp every
subsequent blocking call to at most this duration. -/
def setMaxLockTimeout (s : LMState) (lid : Nat) (t : Nat) : LMState :=
  updateLocker s lid fun d => { d with maxLockTimeout := some t }

def numResourcesToUnlockAtEndUnitOfWorkForTest (s : LMState) (lid : Nat) : Nat :=
  (getLocker s lid).numResourcesToUnlockAtEndUnitOfWork

/-! ## Save / restore of lock state, and the global-lock transplant -/

/-- Modelled from the spec: the opaque snapshot filled by
`saveLockStateAndUnlock` (§4.4): the global mode plus the other
resource/mode pairs, in the Locker's acquisition order. -/
structure LockSnapshot where
  globalMode : LockMode
  locks : List (ResourceId × LockMode)
deriving DecidableEq, Repr

def emptySnapshot : LockSnapshot := ⟨MODE_NONE, []⟩

/-- Modelled from the spec: `saveLockStateAndUnlock` (§4.4) — fully release
every lock this Locker holds at every granularity, copying the
resource/mode pairs into a snapshot; returns whether the global lock was
actually released (false, leaving everything in place, when the global
resource was acquired more than once). Holding nothing yields an empty
snapshot. -/
def saveLockStateAndUnlock (s : LMState) (lid : Nat) : Bool × LockSnapshot × LMState :=
  match getRequest s lid globalResId with
  | none => (false, emptySnapshot, s)
  | some g =>
    if g.recursiveCount > 1 then (false, emptySnapshot, s)
    else
      let others := (getLocker s lid).held.filter fun r => !(r == globalResId)
      let snap : LockSnapshot :=
        ⟨g.mode, others.map fun r => (r, getLockMode s lid r)⟩
      let s1 := (unlockGlobal s lid).2
      let s2 := others.foldl (fun acc r => (unlock acc lid r).2) s1
      (true, snap, s2)

/-- Modelled from the spec: `restoreLockState` (§4.4) — re-acquire, in the
same relative order, every pair recorded in the snapshot, starting with
the global resource. -/
def restoreLockState (s : LMState) (lid : Nat) (snap : LockSnapshot) : LMState :=
  let s1 := (lockGlobal s lid snap.globalMode).2
  snap.locks.foldl (fun acc rm => (lock acc lid rm.1 rm.2 none).2) s1

/-- Modelled from the spec: the parked lockers' side of the transplant
protocol (§4.4) — restore a saved state, but acquire the global resource
against a temporary, detached Lock Head instead of the live one; the other
resources are restored against the live table. -/
def restoreLockStateWithTemporaryGlobalLockHead (s : LMState) (lid : Nat)
    (snap : LockSnapshot) (temp : LockHead) : LockHead × LMState :=
  let rh := newRequestHead temp lid snap.globalMode
  let s1 := addHeld s lid globalResId
  let s2 := snap.locks.foldl (fun acc rm => (lock acc lid rm.1 rm.2 none).2) s1
  (rh.2, s2)

/-- Modelled from the spec: the coordinator's side of the transplant
protocol (§4.4) — atomically release the coordinator's exclusive grant on
the live global Lock Head and install the parked lockers' grants from the
temporary head into the live one (the temporary head is then discarded);
waiters against the live head are granted as compatibility allows. -/
def replaceGlobalLockStateWithTemporaryGlobalLockHead (s : LMState) (lid : Nat)
    (temp : LockHead) : LMState :=
  let s1 :=
    match findHead s.heads globalResId with
    | none => s
    | some h => removeHeld (writeHead s globalResId (releaseHead h lid)) lid globalResId
  match findHead s1.heads globalResId with
  | none => writeHead s1 globalResId (some (scheduleWaiters temp))
  | some h =>
    let merged : LockHead :=
      { h with
        grantedList := h.grantedList ++ temp.grantedList
        grantedCounts := fun m => h.grantedCounts m + temp.grantedCounts m }
    writeHead s1 globalResId (some (scheduleWaiters merged))

/-- The waiting (conflict) list of the Lock Head for `r`, if any. -/
def conflictRequestsOf (s : LMState) (r : ResourceId) : List LockRequest :=
  match findHead s.heads r with
  | none => []
  | some h => h.conflictList

/-! ## Traces of Locker operations

The compatibility invariant (§8) is stated over every state the system can
reach: we quantify over arbitrary sequences of Locker API calls, applied
from the initial (empty) state. -/

/-- One Locker API call, with its arguments (results are discarded; only
the state evolution matters for the invariant). -/
inductive LockerOp : Type
  | opLockBegin (lid : Nat) (r : ResourceId) (m : LockMode)
  | opLockComplete (lid : Nat) (r : ResourceId) (dl : Option Nat) (checkDeadlock : Bool)
  | opLock (lid : Nat) (r : ResourceId) (m : LockMode) (dl : Option Nat)
  | opLockGlobal (lid : Nat) (m : LockMode)
  | opUnlock (lid : Nat) (r : ResourceId)
  | opUnlockGlobal (lid : Nat)
  | opBeginWUOW (lid : Nat)
  | opEndWUOW (lid : Nat)
  | opSetSharedTwoPhase (lid : Nat) (b : Bool)
  | opSetMaxLockTimeout (lid : Nat) (t : Nat)
  | opSave (lid : Nat)
  | opRestore (lid : Nat) (snap : LockSnapshot)

def applyOp (s : LMState) : LockerOp → LMState
  | .opLockBegin lid r m => (lockBegin s lid r m).2
  | .opLockComplete lid r dl cd => (lockComplete s lid r dl cd).2
  | .opLock lid r m dl => (lock s lid r m dl).2
  | .opLockGlobal lid m => (lockGlobal s lid m).2
  | .opUnlock lid r => (unlock s lid r).2
  | .opUnlockGlobal lid => (unlockGlobal s lid).2
  | .opBeginWUOW lid => beginWriteUnitOfWork s lid
  | .opEndWUOW lid => endWriteUnitOfWork s lid
  | .opSetSharedTwoPhase lid b => setSharedLocksShouldTwoPhaseLock s lid b
  | .opSetMaxLockTimeout lid t => setMaxLockTimeout s lid t
  | .opSave lid => (saveLockStateAndUnlock s lid).2.2
  | .opRestore lid snap => restoreLockState s lid snap

def applyOps (ops : List LockerOp) (s : LMState) : LMState :=
  ops.foldl applyOp s

/-! ## Concrete scenario states (mirroring the unit tests of the source tree) -/

section Scenarios

def tcoll : ResourceId := ⟨RESOURCE_COLLECTION, 10⟩

-- LockNoConflict
def sA1 := (lockGlobal initialState 1 MODE_IX).2
def sA2r := lock sA1 1 tcoll MODE_X none

-- ReLockNoConflict
def sB1 := (lock sA1 1 tcoll MODE_S none).2
def sB2 := (lock sB1 1 tcoll MODE_X none)

-- ConflictWithTimeout
def sC1 := (lock (lockGlobal sA2r.2 2 MODE_IX).2 2 tcoll MODE_S (some 0))

-- ConflictUpgradeWithTimeout
def sD1 := (lock (lockGlobal initialState 1 MODE_IS).2 1 tcoll MODE_S none).2
def sD2 := (lock (lockGlobal sD1 2 MODE_IS).2 2 tcoll MODE_S none).2
def sD3 := lock sD2 1 tcoll MODE_X (some 1)

-- CanceledDeadlockUnblocks
def ddb1 : ResourceId := ⟨RESOURCE_DATABASE, 1⟩
def ddb2 : ResourceId := ⟨RESOURCE_DATABASE, 2⟩
def sE1 := (lock (lockGlobal initialState 1 MODE_IX).2 1 ddb1 MODE_S none).2
def sE2 := (lock (lockGlobal sE1 2 MODE_IX).2 2 ddb2 MODE_X none).2
def sE3 := lockBegin sE2 1 ddb2 MODE_X
def sE4 := lockBegin sE3.2 2 ddb1 MODE_X
def sE5 := lockBegin (lockGlobal sE4.2 3 MODE_IX).2 3 ddb1 MODE_S
def sE6 := lockComplete sE5.2 2 ddb1 (some 1) true
def sE7 := lockComplete sE6.2 3 ddb1 (some 1) false
def sE8 := lockComplete sE7.2 1 ddb2 (some 1) false
-- after locker2 releases db2, locker1 can take it
def sE9 := (unlock sE8.2 2 ddb2).2

-- Two-locker deadlock counterexample states (claim C3's own A/B scenario):
-- after locker2's deadlock-checked call is cancelled, locker1 (the other
-- side) still cannot complete: locker2 keeps holding db2 in X.
def sCE1 := lockComplete sE4.2 2 ddb1 (some 1) true
def sCE2 := lockComplete sCE1.2 1 ddb2 (some 1) true

-- SharedLocksShouldTwoPhaseLockIsTrue
def r1 : ResourceId := ⟨RESOURCE_DATABASE, 1⟩
def r2 : ResourceId := ⟨RESOURCE_DATABASE, 2⟩
def r3 : ResourceId := ⟨RESOURCE_COLLECTION, 3⟩
def r4 : ResourceId := ⟨RESOURCE_COLLECTION, 4⟩
def sF0 := setSharedLocksShouldTwoPhaseLock initialState 1 true
def sF1 := (lockGlobal sF0 1 MODE_IS).2
def sF2 := (lock sF1 1 r1 MODE_IS none).2
def sF3 := (lock sF2 1 r2 MODE_IX none).2
def sF4 := (lock sF3 1 r3 MODE_S none).2
def sF5 := (lock sF4 1 r4 MODE_X none).2
def sF6 := beginWriteUnitOfWork sF5 1
def sF7 := (unlock sF6 1 r1).2
def sF8 := (unlock sF7 1 r2).2
def sF9 := (unlock sF8 1 r3).2
def sF10 := (unlock sF9 1 r4).2
def sF11 := (unlockGlobal sF10 1).2
def sF12 := endWriteUnitOfWork sF11 1

-- ModeIXAndXLockParticipatesInTwoPhaseLocking
def sG1 := (lockGlobal initialState 1 MODE_IX).2
def sG2 := (lock sG1 1 r1 MODE_IS none).2
def sG3 := (lock sG2 1 r2 MODE_IX none).2
def sG4 := (lock sG3 1 r3 MODE_S none).2
def sG5 := (lock sG4 1 r4 MODE_X none).2
def sG6 := beginWriteUnitOfWork sG5 1
def sG7 := (unlock sG6 1 r1).2
def sG8 := (unlock sG7 1 r2).2
def sG9 := (unlock sG8 1 r3).2
def sG10 := (unlock sG9 1 r4).2
def sG11 := (unlockGlobal sG10 1).2
def sG12 := endWriteUnitOfWork sG11 1

-- ReaquireLockPendingUnlock
def sH1 := (lock (lockGlobal initialState 1 MODE_IS).2 1 tcoll MODE_X none).2
def sH2 := beginWriteUnitOfWork sH1 1
def sH3 := (unlock sH2 1 tcoll).2
def sH4 := lock sH3 1 tcoll MODE_X none
def sH5 := endWriteUnitOfWork sH4.2 1

-- AcquireLockPendingUnlockWithCoveredMode: relock with IX on pending X
def sH6 := lock sH3 1 tcoll MODE_IX none

-- ConvertLockPendingUnlock
def sI1 := (lock (lockGlobal initialState 1 MODE_IS).2 1 tcoll MODE_IX none).2
def sI2 := beginWriteUnitOfWork sI1 1
def sI3 := (unlock sI2 1 tcoll).2
def sI4 := lock sI3 1 tcoll MODE_X none
def sI5 := endWriteUnitOfWork sI4.2 1

-- ConvertLockPendingUnlockAndUnlock
def sJ1 := (unlock sI4.2 1 tcoll)
def sJ2 := endWriteUnitOfWork sJ1.2 1

-- saveAndRestoreGlobal
def sK0 := saveLockStateAndUnlock initialState 1
def sK1 := (lockGlobal initialState 1 MODE_IX).2
def sK2 := saveLockStateAndUnlock sK1 1
def sK3 := restoreLockState sK2.2.2 1 sK2.2.1

-- saveAndRestoreGlobalAcquiredTwice
def sL1 := (lockGlobal sK1 1 MODE_IX).2
def sL2 := saveLockStateAndUnlock sL1 1

-- saveAndRestoreDBAndCollection
def rdb : ResourceId := ⟨RESOURCE_DATABASE, 5⟩
def sM1 := (lock (lock (lockGlobal initialState 1 MODE_IX).2 1 rdb MODE_IX none).2 1 tcoll MODE_X none).2
def sM2 := saveLockStateAndUnlock sM1 1
def sM3 := restoreLockState sM2.2.2 1 sM2.2.1

-- OverrideLockRequestTimeout / DoNotWaitForLockAcquisition
def rFirst : ResourceId := ⟨RESOURCE_DATABASE, 21⟩
def rSecond : ResourceId := ⟨RESOURCE_DATABASE, 22⟩
def sN1 := setMaxLockTimeout (lockGlobal (lockGlobal initialState 1 MODE_IX).2 2 MODE_IX).2 2 1000
def sN2 := (lock sN1 1 rFirst MODE_X none).2
def sN3 := setMaxLockTimeout sN2 2 0

-- X-holder vs S-request scenario (locker 1 holds tcoll in X; locker 2 holds global IX)
def sC0 := (lockGlobal sA2r.2 2 MODE_IX).2

/-- The two-phase unlock scenario family: one Locker (with the
shared-locks-two-phase flag set to `b`) acquires the global resource in IS
and `tcoll` in `m`, then opens a write unit of work. -/
def twoPhaseScenario (m : LockMode) (b : Bool) : LMState :=
  beginWriteUnitOfWork
    (lock (lockGlobal (setSharedLocksShouldTwoPhaseLock initialState 1 b) 1 MODE_IS).2
      1 tcoll m none).2 1

-- TempName (transplant)
def tdb : ResourceId := ⟨RESOURCE_DATABASE, 30⟩
def tc1 : ResourceId := ⟨RESOURCE_COLLECTION, 31⟩
def tc2 : ResourceId := ⟨RESOURCE_COLLECTION, 32⟩
def tc3 : ResourceId := tc2
def sT1 := (lock (lock (lock (lockGlobal initialState 1 MODE_IX).2 1 tdb MODE_IX none).2 1 tc1 MODE_IX none).2 1 tc2 MODE_IX none).2
def sT2 := (lock (lock (lockGlobal sT1 2 MODE_IX).2 2 tdb MODE_IX none).2 2 tc2 MODE_IX none).2
def sT3 := (lock (lock (lockGlobal sT2 3 MODE_IX).2 3 tdb MODE_IX none).2 3 tc3 MODE_IX none).2
def sT4 := lockGlobalBegin sT3 0 MODE_X none
def sT5 := lockGlobalBegin sT4.2 4 MODE_IS none
def sT6 := saveLockStateAndUnlock sT5.2 1
def sT7 := saveLockStateAndUnlock sT6.2.2 2
def sT8 := saveLockStateAndUnlock sT7.2.2 3
def sT9 := lockGlobalComplete sT8.2.2 0 none
def sT10 := lockGlobalBegin sT9.2 5 MODE_IS none
def tempH0 := LockHead.initNew globalResId
def sT11 := restoreLockStateWithTemporaryGlobalLockHead sT10.2 1 sT6.2.1 tempH0
def sT12 := restoreLockStateWithTemporaryGlobalLockHead sT11.2 2 sT7.2.1 sT11.1
def sT13 := restoreLockStateWithTemporaryGlobalLockHead sT12.2 3 sT8.2.1 sT12.1
def sT14 := replaceGlobalLockStateWithTemporaryGlobalLockHead sT13.2 0 sT13.1

-- Base state for the max-lock-timeout scenarios: locker 1 holds FirstDB
-- exclusively; locker 2 holds only the global lock (no timeout set yet).
def sNB := (lock (lockGlobal (lockGlobal initialState 1 MODE_IX).2 2 MODE_IX).2 1 rFirst MODE_X none).2

/-- The state of a single Locker that has acquired the global resource in
mode `m` with reentry count `n`, and holds nothing else. -/
def gmState (m : LockMode) (n : Nat) : LMState :=
  ⟨[(globalResId, ⟨globalResId, [⟨1, m, MODE_NONE, STATUS_GRANTED, n, 0⟩], [],
      incCount (fun _ => 0) m⟩)],
   [(1, ⟨[globalResId], 0, false, none, 0⟩)]⟩

/-- The state after that Locker has fully released the global resource. -/
def gmReleased : LMState := ⟨[], [(1, ⟨[], 0, false, none, 0⟩)]⟩

/-- `lockGlobal` iterated `n` times from the initial state. -/
def lockGlobalN (n : Nat) (m : LockMode) : LMState :=
  Nat.repeat (fun s => (lockGlobal s 1 m).2) n initialState

/-- `unlockGlobal` iterated `n` times. -/
def unlockGlobalN (n : Nat) (s : LMState) : LMState :=
  Nat.repeat (fun s' => (unlockGlobal s' 1).2) n s

/-- The state of a Locker holding the global resource in IS (reentry 1)
and `tcoll` in mode `md` with recursion count `rc`, deferred-unlock count
`up` and grant counts `c`, at write-scope nesting `wu` with `nres`
resources pending end-of-scope release. -/
def wuSt (rc up : Nat) (md : LockMode) (c : LockMode → Nat) (wu nres : Nat) : LMState :=
  ⟨[(globalResId, ⟨globalResId, [⟨1, MODE_IS, MODE_NONE, STATUS_GRANTED, 1, 0⟩], [],
      incCount (fun _ => 0) MODE_IS⟩),
    (tcoll, ⟨tcoll, [⟨1, md, MODE_NONE, STATUS_GRANTED, rc, up⟩], [], c⟩)],
   [(1, ⟨[globalResId, tcoll], wu, false, none, nres⟩)]⟩

/-- Same Locker after `tcoll` has been fully released at end of scope. -/
def wuDone : LMState :=
  ⟨[(globalResId, ⟨globalResId, [⟨1, MODE_IS, MODE_NONE, STATUS_GRANTED, 1, 0⟩], [],
      incCount (fun _ => 0) MODE_IS⟩)],
   [(1, ⟨[globalResId], 0, false, none, 0⟩)]⟩

def cIX : LockMode → Nat := incCount (fun _ => 0) MODE_IX

def cX : LockMode → Nat := incCount (decCount cIX MODE_IX) MODE_X

-- The conversion-under-two-phase-locking scenario family: `tcoll` is
-- acquired in IX once plus `k` recursive times, a write scope opens, one
-- unlock is deferred, the lock is converted to X, and a second unlock is
-- deferred; then the scope ends.
def cS0 := (lock (lockGlobal initialState 1 MODE_IS).2 1 tcoll MODE_IX none).2
def cS1 (k : Nat) := Nat.repeat (fun s' => (lock s' 1 tcoll MODE_IX none).2) k cS0
def cS2 (k : Nat) := beginWriteUnitOfWork (cS1 k) 1
def cS3 (k : Nat) := (unlock (cS2 k) 1 tcoll).2
def cS4 (k : Nat) := (lock (cS3 k) 1 tcoll MODE_X none).2
def cS5 (k : Nat) := (unlock (cS4 k) 1 tcoll).2
def cS6 (k : Nat) := endWriteUnitOfWork (cS5 k) 1

/-- A Lock Head holding a single granted request of locker 1. -/
def singleHead (r : ResourceId) (m : LockMode) : LockHead :=
  ⟨r, [⟨1, m, MODE_NONE, STATUS_GRANTED, 1, 0⟩], [], incCount (fun _ => 0) m⟩

/-- The state of a single Locker (id 1) holding the global resource in
`gm` and each resource of `pairs` at its paired mode, all at recursion
count 1, acquired in list order after the global resource. -/
def buildState (gm : LockMode) (pairs : List (ResourceId × LockMode)) : LMState :=
  ⟨(globalResId, singleHead globalResId gm) :: pairs.map (fun rm => (rm.1, singleHead rm.1 rm.2)),
   [(1, ⟨globalResId :: pairs.map (·.1), 0, false, none, 0⟩)]⟩

/-- The same Locker after the global lock was released but before the
non-global ones have been. -/
def midState (pairs : List (ResourceId × LockMode)) : LMState :=
  ⟨pairs.map (fun rm => (rm.1, singleHead rm.1 rm.2)),
   [(1, ⟨pairs.map (·.1), 0, false, none, 0⟩)]⟩

/-- Release each resource in turn, conjoining the unlock results. -/
def unlockAll (s : LMState) : List ResourceId → Bool × LMState
  | [] => (true, s)
  | r :: rest =>
    let br := unlock s 1 r
    let rec' := unlockAll br.2 rest
    (br.1 && rec'.1, rec'.2)

end Scenarios

/-! ## The compatibility invariant (§8) -/

/-- Count of granted requests of mode `m` (the partition cardinality the
per-mode grant counts must agree with). -/
def countMode (m : LockMode) (l : List LockRequest) : Nat :=
  l.countP fun q => q.mode == m

/-- Boolean check: the modes in a request list are pairwise compatible
under the matrix (both directions of each pair). -/
def pairwiseCompatB : List LockRequest → Bool
  | [] => true
  | q :: rest =>
    (rest.all fun p => compatible q.mode p.mode && compatible p.mode q.mode) && pairwiseCompatB rest

/-- Boolean check: each per-mode grant count equals the number of granted
requests of that mode. -/
def countsOkB (h : LockHead) : Bool :=
  allModes.all fun m => h.grantedCounts m == countMode m h.grantedList

/-- The §8 compatibility invariant at one Lock Head. -/
def headOkB (h : LockHead) : Bool :=
  pairwiseCompatB h.grantedList && countsOkB h

/-- The §8 compatibility invariant over the whole lock table. -/
def tableOkB (hs : List (ResourceId × LockHead)) : Bool :=
  hs.all fun p => headOkB p.2

/-- The granted-modes relation used in proofs. -/
def GrantRel (a b : LockRequest) : Prop := compatible a.mode b.mode = true

/-- Propositional form of the per-head invariant. -/
def headOk (h : LockHead) : Prop :=
  h.grantedList.Pairwise GrantRel ∧ ∀ m, h.grantedCounts m = countMode m h.grantedList

def stateOk (s : LMState) : Prop := ∀ p ∈ s.heads, headOk p.2

theorem compatible_symm (a b : LockMode) : compatible a b = compatible b a := by
  cases a <;> cases b <;> rfl

theorem mem_allModes (m : LockMode) : m ∈ allModes := by
  cases m <;> simp [allModes]

theorem pairwiseCompatB_iff (l : List LockRequest) :
    pairwiseCompatB l = true ↔ l.Pairwise GrantRel := by
  induction l with
  | nil => simp [pairwiseCompatB]
  | cons q rest ih =>
    simp only [pairwiseCompatB, Bool.and_eq_true, List.all_eq_true, List.pairwise_cons, ih]
    constructor
    · rintro ⟨h1, h2⟩
      exact ⟨fun b hb => (h1 b hb).1, h2⟩
    · rintro ⟨h1, h2⟩
      refine ⟨fun b hb => ⟨h1 b hb, ?_⟩, h2⟩
      have h3 : compatible q.mode b.mode = true := h1 b hb
      rw [compatible_symm] at h3
      exact h3

theorem headOkB_iff (h : LockHead) : headOkB h = true ↔ headOk h := by
  simp only [headOkB, Bool.and_eq_true, countsOkB, List.all_eq_true, headOk,
    pairwiseCompatB_iff, beq_iff_eq]
  constructor
  · rintro ⟨h1, h2⟩
    exact ⟨h1, fun m => h2 m (mem_allModes m)⟩
  · rintro ⟨h1, h2⟩
    exact ⟨h1, fun m _ => h2 m⟩

theorem tableOkB_iff (hs : List (ResourceId × LockHead)) :
    tableOkB hs = true ↔ ∀ p ∈ hs, headOk p.2 := by
  simp only [tableOkB, List.all_eq_true]
  constructor
  · intro h p hp
    exact (headOkB_iff p.2).1 (h p hp)
  · intro h p hp
    exact (headOkB_iff p.2).2 (h p hp)

/-! ### Counting lemmas -/

theorem countMode_append (m : LockMode) (a b : List LockRequest) :
    countMode m (a ++ b) = countMode m a + countMode m b :=
  List.countP_append _ _ _

theorem countMode_cons (m : LockMode) (q : LockRequest) (l : List LockRequest) :
    countMode m (q :: l) = countMode m l + (if q.mode == m then 1 else 0) :=
  List.countP_cons _ _ _

theorem countMode_pos_of_mem {q : LockRequest} {l : List LockRequest} (hq : q ∈ l) :
    0 < countMode q.mode l := by
  refine List.countP_pos_iff.2 ⟨q, hq, ?_⟩
  simp

theorem countMode_map_modePreserving (m : LockMode) (f : LockRequest → LockRequest)
    (hf : ∀ q, (f q).mode = q.mode) (l : List LockRequest) :
    countMode m (l.map f) = countMode m l := by
  simp only [countMode, List.countP_map]
  apply List.countP_congr
  intro q _
  simp [Function.comp, hf]

/-- Compatibility with the non-zero per-mode counts implies compatibility
with every granted request, given correct counts. -/
theorem compat_of_counts {c : LockMode → Nat} {g : List LockRequest} {m : LockMode}
    (hc : ∀ m', c m' = countMode m' g)
    (h : compatibleWithGrantedCounts c m = true) :
    ∀ q ∈ g, compatible q.mode m = true := by
  intro q hq
  have hall := (List.all_eq_true.1 h) q.mode (mem_allModes q.mode)
  rw [Bool.or_eq_true] at hall
  rcases hall with h0 | hcomp
  · exfalso
    have := countMode_pos_of_mem hq
    rw [← hc q.mode] at this
    simp only [beq_iff_eq] at h0
    omega
  · exact hcomp

theorem othersCompatible_mem {others : List LockRequest} {m : LockMode}
    (h : othersCompatible others m = true) :
    ∀ q ∈ others, compatible q.mode m = true ∧ compatible m q.mode = true := by
  intro q hq
  have := (List.all_eq_true.1 h) q hq
  rw [Bool.and_eq_true] at this
  exact this

/-! ### Pairwise-list surgery -/

theorem pairwise_append_singleton {l : List LockRequest} {y : LockRequest}
    (hl : l.Pairwise GrantRel) (hy : ∀ z ∈ l, GrantRel z y) :
    (l ++ [y]).Pairwise GrantRel := by
  rw [List.pairwise_append]
  exact ⟨hl, List.pairwise_singleton _ _, fun a ha b hb => by
    simp only [List.mem_singleton] at hb
    subst hb
    exact hy a ha⟩

theorem pairwise_update_middle {l1 l2 : List LockRequest} {x y : LockRequest}
    (h : (l1 ++ x :: l2).Pairwise GrantRel)
    (hy : ∀ z ∈ l1 ++ l2, GrantRel z y ∧ GrantRel y z) :
    (l1 ++ y :: l2).Pairwise GrantRel := by
  rw [List.pairwise_append] at h ⊢
  obtain ⟨h1, h2, h3⟩ := h
  rw [List.pairwise_cons] at h2 ⊢
  refine ⟨h1, ⟨fun b hb => (hy b (by simp [hb])).2, h2.2⟩, ?_⟩
  intro a ha b hb
  rcases List.mem_cons.1 hb with rfl | hb2
  · exact (hy a (by simp [ha])).1
  · exact h3 a ha b (by simp [hb2])

theorem pairwise_remove_middle {l1 l2 : List LockRequest} {x : LockRequest}
    (h : (l1 ++ x :: l2).Pairwise GrantRel) :
    (l1 ++ l2).Pairwise GrantRel := by
  rw [List.pairwise_append] at h ⊢
  obtain ⟨h1, h2, h3⟩ := h
  rw [List.pairwise_cons] at h2
  exact ⟨h1, h2.2, fun a ha b hb => h3 a ha b (by simp [hb])⟩

theorem counts_add_last {c : LockMode → Nat} {g : List LockRequest} {x : LockRequest}
    (hc : ∀ m', c m' = countMode m' g) (m' : LockMode) :
    incCount c x.mode m' = countMode m' (g ++ [x]) := by
  rw [countMode_append, countMode_cons, ← hc m']
  simp only [incCount, beq_iff_eq, countMode, List.countP_nil]
  by_cases h : m' = x.mode
  · have h2 : x.mode = m' := h.symm
    simp [h2]
  · have h2 : ¬ x.mode = m' := fun e => h e.symm
    simp [h, h2]

theorem counts_remove_middle {c : LockMode → Nat} {g1 g2 : List LockRequest} {q : LockRequest}
    (hc : ∀ m', c m' = countMode m' (g1 ++ q :: g2)) (m' : LockMode) :
    decCount c q.mode m' = countMode m' (g1 ++ g2) := by
  have h0 := hc m'
  rw [countMode_append, countMode_cons] at h0
  rw [countMode_append]
  simp only [decCount, beq_iff_eq] at h0 ⊢
  by_cases h : m' = q.mode
  · have h2 : q.mode = m' := h.symm
    simp only [h2, eq_self_iff_true, if_true] at h0 ⊢
    omega
  · have h2 : ¬ q.mode = m' := fun e => h e.symm
    simp only [h, h2, if_false] at h0 ⊢
    omega

theorem counts_replace_middle {c : LockMode → Nat} {g1 g2 : List LockRequest}
    {q : LockRequest} (q' : LockRequest)
    (hc : ∀ m', c m' = countMode m' (g1 ++ q :: g2)) (m' : LockMode) :
    incCount (decCount c q.mode) q'.mode m' = countMode m' (g1 ++ q' :: g2) := by
  have h0 := hc m'
  rw [countMode_append, countMode_cons] at h0
  rw [countMode_append, countMode_cons]
  simp only [incCount, decCount, beq_iff_eq] at h0 ⊢
  by_cases hq : m' = q.mode <;> by_cases hq' : m' = q'.mode
  · have e1 : q.mode = m' := hq.symm
    have e2 : q'.mode = m' := hq'.symm
    simp only [e1, e2, eq_self_iff_true, if_true] at h0 ⊢
    omega
  · have e1 : q.mode = m' := hq.symm
    have e2 : ¬ q'.mode = m' := fun e => hq' e.symm
    simp only [e1, hq', e2, eq_self_iff_true, if_true, if_false] at h0 ⊢
    omega
  · have e1 : ¬ q.mode = m' := fun e => hq e.symm
    have e2 : q'.mode = m' := hq'.symm
    simp only [e2, hq, e1, eq_self_iff_true, if_true, if_false] at h0 ⊢
    omega
  · have e1 : ¬ q.mode = m' := fun e => hq e.symm
    have e2 : ¬ q'.mode = m' := fun e => hq' e.symm
    simp only [hq, hq', e1, e2, if_false] at h0 ⊢
    omega

/-! ### Shape lemmas for the list-splitting helpers -/

theorem splitByLidAux_shape {lid : Nat} :
    ∀ (l pre p : List LockRequest) (q : LockRequest) (rest : List LockRequest),
      splitByLidAux lid pre l = some (p, q, rest) →
      pre ++ l = p ++ q :: rest ∧ q.lockerId = lid := by
  intro l
  induction l with
  | nil => intro pre p q rest h; simp [splitByLidAux] at h
  | cons x xs ih =>
    intro pre p q rest h
    simp only [splitByLidAux] at h
    by_cases hx : (x.lockerId == lid) = true
    · rw [if_pos hx] at h
      obtain ⟨rfl, rfl, rfl⟩ : pre = p ∧ x = q ∧ xs = rest := by
        simpa using h
      exact ⟨rfl, by simpa using hx⟩
    · rw [if_neg hx] at h
      have := ih (pre ++ [x]) p q rest h
      refine ⟨?_, this.2⟩
      rw [← this.1]
      simp

theorem splitByLid_shape {lid : Nat} {l p : List LockRequest} {q : LockRequest}
    {rest : List LockRequest} (h : splitByLid lid l = some (p, q, rest)) :
    l = p ++ q :: rest ∧ q.lockerId = lid := by
  have := splitByLidAux_shape l [] p q rest h
  simpa using this

theorem findGrantableConvAux_shape :
    ∀ (l pre p : List LockRequest) (q : LockRequest) (rest : List LockRequest),
      findGrantableConvAux pre l = some (p, q, rest) →
      pre ++ l = p ++ q :: rest ∧ othersCompatible (p ++ rest) q.convertMode = true := by
  intro l
  induction l with
  | nil => intro pre p q rest h; simp [findGrantableConvAux] at h
  | cons x xs ih =>
    intro pre p q rest h
    simp only [findGrantableConvAux] at h
    by_cases hx : (x.status == STATUS_CONVERTING && othersCompatible (pre ++ xs) x.convertMode) = true
    · rw [if_pos hx] at h
      obtain ⟨rfl, rfl, rfl⟩ : pre = p ∧ x = q ∧ xs = rest := by
        simpa using h
      exact ⟨rfl, ((Bool.and_eq_true _ _).mp hx).2⟩
    · rw [if_neg hx] at h
      have := ih (pre ++ [x]) p q rest h
      refine ⟨?_, this.2⟩
      rw [← this.1]
      simp

theorem countMode_replace_same_mode {g1 g2 : List LockRequest} (q q' : LockRequest)
    (hmode : q'.mode = q.mode) (m' : LockMode) :
    countMode m' (g1 ++ q' :: g2) = countMode m' (g1 ++ q :: g2) := by
  rw [countMode_append, countMode_cons, countMode_append, countMode_cons, hmode]

/-! ### The invariant is preserved by every Lock Head primitive -/

theorem headOk_initNew (r : ResourceId) : headOk (LockHead.initNew r) := by
  constructor
  · exact List.Pairwise.nil
  · intro m
    rfl

theorem headOk_newRequestHead {h : LockHead} (hok : headOk h) (lid : Nat) (m : LockMode) :
    headOk (newRequestHead h lid m).2 := by
  unfold newRequestHead
  by_cases hcond : (compatibleWithGrantedCounts h.grantedCounts m && pendingConversionsOk h.grantedList m
      && noConflictingWaiters h.conflictList m) = true
  · rw [if_pos hcond]
    dsimp only
    obtain ⟨hp, hc⟩ := hok
    have hcg : compatibleWithGrantedCounts h.grantedCounts m = true := by
      rw [Bool.and_eq_true, Bool.and_eq_true] at hcond
      exact hcond.1.1
    constructor
    · exact pairwise_append_singleton hp fun z hz => compat_of_counts hc hcg z hz
    · intro m'
      exact counts_add_last (x := ⟨lid, m, MODE_NONE, STATUS_GRANTED, 1, 0⟩) hc m'
  · rw [if_neg hcond]
    exact hok

theorem headOk_convertHead {h : LockHead} (hok : headOk h) (lid : Nat) (m : LockMode) :
    headOk (convertHead h lid m).2 := by
  unfold convertHead
  cases hsplit : splitByLid lid h.grantedList with
  | none => exact hok
  | some pqr =>
    obtain ⟨pre, q, post⟩ := pqr
    obtain ⟨hshape, -⟩ := splitByLid_shape hsplit
    obtain ⟨hp, hc⟩ := hok
    rw [hshape] at hp hc
    dsimp only
    by_cases hcond : othersCompatible (pre ++ post) (modeJoin q.mode m) = true
    · rw [if_pos hcond]
      dsimp only
      constructor
      · refine pairwise_update_middle hp fun z hz => ?_
        have := othersCompatible_mem hcond z hz
        exact ⟨this.1, this.2⟩
      · intro m'
        exact counts_replace_middle ⟨q.lockerId, modeJoin q.mode m, MODE_NONE,
          STATUS_GRANTED, q.recursiveCount, q.unlockPending⟩ hc m'
    · rw [if_neg hcond]
      dsimp only
      constructor
      · refine pairwise_update_middle hp fun z hz => ?_
        rw [List.pairwise_append] at hp
        obtain ⟨hp1, hp2, hp3⟩ := hp
        rw [List.pairwise_cons] at hp2
        rcases List.mem_append.1 hz with hz1 | hz2
        · have h1 : GrantRel z q := hp3 z hz1 q (by simp)
          have h2 : GrantRel q z := by
            unfold GrantRel at h1 ⊢
            rw [compatible_symm]
            exact h1
          exact ⟨h1, h2⟩
        · have h2 : GrantRel q z := hp2.1 z hz2
          have h1 : GrantRel z q := by
            unfold GrantRel at h2 ⊢
            rw [compatible_symm]
            exact h2
          exact ⟨h1, h2⟩
      · intro m'
        show h.grantedCounts m' = _
        rw [countMode_replace_same_mode q
          { q with status := STATUS_CONVERTING, convertMode := modeJoin q.mode m } rfl]
        exact hc m'

theorem headOk_grantConvLoop {h : LockHead} (hok : headOk h) (fuel : Nat) :
    headOk (grantConvLoop fuel h) := by
  induction fuel generalizing h with
  | zero => exact hok
  | succ n ih =>
    unfold grantConvLoop
    cases hfind : findGrantableConvAux [] h.grantedList with
    | none => exact hok
    | some pqr =>
      obtain ⟨pre, q, post⟩ := pqr
      obtain ⟨hshape, hcompat⟩ := findGrantableConvAux_shape h.grantedList [] pre q post hfind
      simp only [List.nil_append] at hshape
      apply ih
      obtain ⟨hp, hc⟩ := hok
      rw [hshape] at hp hc
      constructor
      · refine pairwise_update_middle hp fun z hz => ?_
        have := othersCompatible_mem hcompat z hz
        exact ⟨this.1, this.2⟩
      · intro m'
        exact counts_replace_middle (grantConv q) hc m'

theorem headOk_grantQueueGo {g : List LockRequest} {c : LockMode → Nat}
    (hp : g.Pairwise GrantRel) (hc : ∀ m', c m' = countMode m' g) :
    ∀ queue : List LockRequest,
      (grantQueueGo g c queue).1.Pairwise GrantRel ∧
      ∀ m', (grantQueueGo g c queue).2.1 m' = countMode m' (grantQueueGo g c queue).1 := by
  intro queue
  induction queue generalizing g c with
  | nil => exact ⟨hp, hc⟩
  | cons q rest ih =>
    unfold grantQueueGo
    by_cases hcond : (compatibleWithGrantedCounts c q.mode && pendingConversionsOk g q.mode) = true
    · rw [if_pos hcond]
      have hcond2 := hcond
      rw [Bool.and_eq_true] at hcond2
      have hcg : compatibleWithGrantedCounts c q.mode = true := hcond2.1
      have hp' : (g ++ [{ q with status := STATUS_GRANTED }]).Pairwise GrantRel :=
        pairwise_append_singleton hp fun z hz => compat_of_counts hc hcg z hz
      have hc' : ∀ m', incCount c q.mode m' =
          countMode m' (g ++ [{ q with status := STATUS_GRANTED }]) := by
        intro m'
        have := counts_add_last (x := { q with status := STATUS_GRANTED }) hc m'
        simpa using this
      exact ih hp' hc'
    · rw [if_neg hcond]
      exact ⟨hp, hc⟩

theorem headOk_scheduleWaiters {h : LockHead} (hok : headOk h) :
    headOk (scheduleWaiters h) := by
  unfold scheduleWaiters
  have h1 := headOk_grantConvLoop hok (h.grantedList.length + 1)
  obtain ⟨hp, hc⟩ := h1
  have h2 := headOk_grantQueueGo hp hc (grantConvLoop (h.grantedList.length + 1) h).conflictList
  exact ⟨h2.1, h2.2⟩

theorem headOk_releaseHead {h : LockHead} (hok : headOk h) (lid : Nat) :
    ∀ h', releaseHead h lid = some h' → headOk h' := by
  intro h' hrel
  unfold releaseHead at hrel
  cases hsplit : splitByLid lid h.grantedList with
  | none =>
    rw [hsplit] at hrel
    simp only [Option.some_inj] at hrel
    rw [← hrel]
    exact hok
  | some pqr =>
    obtain ⟨pre, q, post⟩ := pqr
    rw [hsplit] at hrel
    obtain ⟨hshape, -⟩ := splitByLid_shape hsplit
    obtain ⟨hp, hc⟩ := hok
    rw [hshape] at hp hc
    have hok2 : headOk { h with
        grantedList := pre ++ post
        grantedCounts := decCount h.grantedCounts q.mode } := by
      constructor
      · exact pairwise_remove_middle hp
      · intro m'
        exact counts_remove_middle hc m'
    have hok3 := headOk_scheduleWaiters hok2
    dsimp only at hrel
    unfold deleteIfEmpty at hrel
    split at hrel
    · exact absurd hrel (by simp)
    · simp only [Option.some_inj] at hrel
      rw [← hrel]
      exact hok3

theorem headOk_mapRequests_modePreserving {h : LockHead} (hok : headOk h) (lid : Nat)
    (f : LockRequest → LockRequest) (hf : ∀ q, (f q).mode = q.mode) :
    headOk (mapRequests lid f h) := by
  obtain ⟨hp, hc⟩ := hok
  constructor
  · refine hp.map _ fun a b hab => ?_
    unfold GrantRel at hab ⊢
    by_cases ha : (a.lockerId == lid) = true <;> by_cases hb : (b.lockerId == lid) = true <;>
      simp [ha, hb, hf]
    all_goals exact hab
  · intro m'
    have := countMode_map_modePreserving m' (fun q => if q.lockerId == lid then f q else q)
      (fun q => by by_cases hq : (q.lockerId == lid) = true <;> simp [hq, hf]) h.grantedList
    simp only [mapRequests]
    rw [this]
    exact hc m'

theorem headOk_cancelWaitingHead {h : LockHead} (hok : headOk h) (lid : Nat) :
    ∀ h', cancelWaitingHead h lid = some h' → headOk h' := by
  intro h' hcan
  unfold cancelWaitingHead deleteIfEmpty at hcan
  have hok2 : headOk { h with
      conflictList := h.conflictList.filter fun q => !(q.lockerId == lid) } := hok
  have hok3 := headOk_scheduleWaiters hok2
  split at hcan
  · exact absurd hcan (by simp)
  · simp only [Option.some_inj] at hcan
    rw [← hcan]
    exact hok3

theorem headOk_cancelConversionHead {h : LockHead} (hok : headOk h) (lid : Nat) :
    headOk (cancelConversionHead h lid) := by
  unfold cancelConversionHead
  exact headOk_scheduleWaiters (headOk_mapRequests_modePreserving hok lid _ fun q => rfl)

/-! ### The invariant is preserved by every Locker operation -/

theorem stateOk_setHeadOpt {hs : List (ResourceId × LockHead)} (hok : ∀ p ∈ hs, headOk p.2)
    (r : ResourceId) {new : Option LockHead} (hnew : ∀ h', new = some h' → headOk h') :
    ∀ p ∈ setHeadOpt r new hs, headOk p.2 := by
  induction hs with
  | nil =>
    intro p hp
    cases new with
    | none => exact absurd hp (by simp [setHeadOpt])
    | some h =>
      have hph : p = (r, h) := by simpa [setHeadOpt] using hp
      rw [hph]
      exact hnew h rfl
  | cons x xs ih =>
    intro p hp
    unfold setHeadOpt at hp
    by_cases hx : (x.1 == r) = true
    · rw [if_pos hx] at hp
      cases new with
      | none => exact hok p (by simp [hp])
      | some h =>
        rcases List.mem_cons.1 hp with rfl | hp2
        · exact hnew h rfl
        · exact hok p (by simp [hp2])
    · rw [if_neg hx] at hp
      rcases List.mem_cons.1 hp with rfl | hp2
      · exact hok p (by simp)
      · exact ih (fun p' hp' => hok p' (by simp [hp'])) p hp2

theorem stateOk_writeHead {s : LMState} (hok : stateOk s) (r : ResourceId)
    {new : Option LockHead} (hnew : ∀ h', new = some h' → headOk h') :
    stateOk (writeHead s r new) :=
  stateOk_setHeadOpt hok r hnew

theorem headOk_findHead {s : LMState} (hok : stateOk s) {r : ResourceId} {h : LockHead}
    (hf : findHead s.heads r = some h) : headOk h := by
  unfold findHead at hf
  cases hfind : s.heads.find? fun p => p.1 == r with
  | none => rw [hfind] at hf; simp at hf
  | some p =>
    rw [hfind] at hf
    have hf2 : p.2 = h := by simpa using hf
    rw [← hf2]
    exact hok p (List.mem_of_find?_eq_some hfind)

theorem stateOk_updateLocker {s : LMState} (hok : stateOk s) (lid : Nat)
    (f : LockerData → LockerData) : stateOk (updateLocker s lid f) := hok

theorem stateOk_modifyHeadRequest {s : LMState} (hok : stateOk s) (r : ResourceId) (lid : Nat)
    {f : LockRequest → LockRequest} (hf : ∀ q, (f q).mode = q.mode) :
    stateOk (modifyHeadRequest s r lid f) := by
  unfold modifyHeadRequest
  cases hfind : findHead s.heads r with
  | none => exact hok
  | some h =>
    refine stateOk_writeHead hok r fun h' hh' => ?_
    simp only [Option.some_inj] at hh'
    rw [← hh']
    exact headOk_mapRequests_modePreserving (headOk_findHead hok hfind) lid f hf

theorem stateOk_lockBegin {s : LMState} (hok : stateOk s) (lid : Nat) (r : ResourceId)
    (m : LockMode) : stateOk (lockBegin s lid r m).2 := by
  unfold lockBegin
  cases hreq : getRequest s lid r with
  | some req =>
    dsimp only
    by_cases h1 : (req.unlockPending > 0 && covers req.mode m) = true
    · rw [if_pos h1]
      dsimp only
      by_cases h2 : (req.unlockPending == 1) = true
      · rw [if_pos h2]
        exact stateOk_updateLocker (stateOk_modifyHeadRequest hok r lid
          (f := fun q => { q with unlockPending := q.unlockPending - 1 }) fun q => rfl) lid _
      · rw [if_neg h2]
        exact stateOk_modifyHeadRequest hok r lid fun q => rfl
    · rw [if_neg h1]
      by_cases h2 : covers req.mode m = true
      · rw [if_pos h2]
        exact stateOk_modifyHeadRequest hok r lid fun q => rfl
      · rw [if_neg h2]
        have hok1 : stateOk (modifyHeadRequest s r lid
            fun q => { q with recursiveCount := q.recursiveCount + 1 }) :=
          stateOk_modifyHeadRequest hok r lid fun q => rfl
        cases hfind : findHead (modifyHeadRequest s r lid
            fun q => { q with recursiveCount := q.recursiveCount + 1 }).heads r with
        | none => exact hok1
        | some h =>
          refine stateOk_writeHead hok1 r fun h' hh' => ?_
          simp only [Option.some_inj] at hh'
          rw [← hh']
          exact headOk_convertHead (headOk_findHead hok1 hfind) lid m
  | none =>
    dsimp only
    have hok1 : stateOk (addHeld s lid r) := hok
    refine stateOk_writeHead hok1 r fun h' hh' => ?_
    simp only [Option.some_inj] at hh'
    rw [← hh']
    refine headOk_newRequestHead ?_ lid m
    cases hfind : findHead (addHeld s lid r).heads r with
    | none => simp [hfind, headOk_initNew]
    | some h => simp only [hfind, Option.getD_some]; exact headOk_findHead hok1 hfind

theorem stateOk_cancelRequest {s : LMState} (hok : stateOk s) (lid : Nat) (r : ResourceId)
    (st : RequestStatus) : stateOk (cancelRequest s lid r st) := by
  unfold cancelRequest
  cases hfind : findHead s.heads r with
  | none => exact hok
  | some h =>
    dsimp only
    by_cases hst : (st == STATUS_WAITING) = true
    · rw [if_pos hst]
      refine stateOk_writeHead (s := s) hok r fun h' hh' => ?_
      exact headOk_cancelWaitingHead (headOk_findHead hok hfind) lid h' hh'
    · rw [if_neg hst]
      refine stateOk_writeHead hok r fun h' hh' => ?_
      simp only [Option.some_inj] at hh'
      rw [← hh']
      exact headOk_cancelConversionHead (headOk_findHead hok hfind) lid

theorem stateOk_lockComplete {s : LMState} (hok : stateOk s) (lid : Nat) (r : ResourceId)
    (dl : Option Nat) (cd : Bool) : stateOk (lockComplete s lid r dl cd).2 := by
  unfold lockComplete
  cases hreq : getRequest s lid r with
  | none => exact hok
  | some req =>
    dsimp only
    cases req.status with
    | STATUS_GRANTED => exact hok
    | STATUS_WAITING =>
      dsimp only
      by_cases h1 : (cd && hasCycle s lid) = true
      · rw [if_pos h1]
        exact stateOk_cancelRequest hok lid r _
      · rw [if_neg h1]
        cases combineDeadline dl (getLocker s lid).maxLockTimeout with
        | some d => exact stateOk_cancelRequest hok lid r _
        | none => exact hok
    | STATUS_CONVERTING =>
      dsimp only
      by_cases h1 : (cd && hasCycle s lid) = true
      · rw [if_pos h1]
        exact stateOk_cancelRequest hok lid r _
      · rw [if_neg h1]
        cases combineDeadline dl (getLocker s lid).maxLockTimeout with
        | some d => exact stateOk_cancelRequest hok lid r _
        | none => exact hok

theorem stateOk_lock {s : LMState} (hok : stateOk s) (lid : Nat) (r : ResourceId)
    (m : LockMode) (dl : Option Nat) : stateOk (lock s lid r m dl).2 := by
  have h1 := stateOk_lockBegin hok lid r m
  show stateOk (match (lockBegin s lid r m).1 with
    | LOCK_WAITING => lockComplete (lockBegin s lid r m).2 lid r dl false
    | res => (res, (lockBegin s lid r m).2)).2
  cases (lockBegin s lid r m).1 with
  | LOCK_WAITING => exact stateOk_lockComplete h1 lid r dl false
  | LOCK_OK => exact h1
  | LOCK_TIMEOUT => exact h1
  | LOCK_DEADLOCK => exact h1
  | LOCK_INVALID => exact h1

theorem stateOk_unlockImpl {s : LMState} (hok : stateOk s) (lid : Nat) (r : ResourceId) :
    stateOk (unlockImpl s lid r).2 := by
  unfold unlockImpl
  cases hreq : getRequest s lid r with
  | none => exact hok
  | some req =>
    dsimp only
    by_cases h1 : req.recursiveCount ≤ 1
    · rw [if_pos h1]
      cases hfind : findHead s.heads r with
      | none => exact hok
      | some h =>
        refine stateOk_writeHead (s := s) hok r fun h' hh' => ?_
        exact headOk_releaseHead (headOk_findHead hok hfind) lid h' hh'
    · rw [if_neg h1]
      exact stateOk_modifyHeadRequest hok r lid fun q => rfl

theorem stateOk_unlock {s : LMState} (hok : stateOk s) (lid : Nat) (r : ResourceId) :
    stateOk (unlock s lid r).2 := by
  unfold unlock
  cases hreq : getRequest s lid r with
  | none => exact hok
  | some req =>
    dsimp only
    by_cases h1 : ((getLocker s lid).wuowNestingLevel > 0 && shouldDelayUnlock s lid req.mode) = true
    · rw [if_pos h1]
      dsimp only
      by_cases h2 : (req.unlockPending == 0) = true
      · rw [if_pos h2]
        exact stateOk_updateLocker (stateOk_modifyHeadRequest hok r lid
          (f := fun q => { q with unlockPending := q.unlockPending + 1 }) fun q => rfl) lid _
      · rw [if_neg h2]
        exact stateOk_modifyHeadRequest hok r lid fun q => rfl
    · rw [if_neg h1]
      exact stateOk_unlockImpl hok lid r

theorem stateOk_foldl {α : Type} {step : LMState → α → LMState}
    (hstep : ∀ s x, stateOk s → stateOk (step s x)) :
    ∀ (l : List α) (s : LMState), stateOk s → stateOk (l.foldl step s) := by
  intro l
  induction l with
  | nil => intro s h; exact h
  | cons x xs ih => intro s h; exact ih _ (hstep s x h)

theorem stateOk_natRepeat {f : LMState → LMState} (hf : ∀ s, stateOk s → stateOk (f s)) :
    ∀ (n : Nat) (s : LMState), stateOk s → stateOk (Nat.repeat f n s) := by
  intro n
  induction n with
  | zero => intro s h; exact h
  | succ k ih => intro s h; exact hf _ (ih s h)

theorem stateOk_endWriteUnitOfWork {s : LMState} (hok : stateOk s) (lid : Nat) :
    stateOk (endWriteUnitOfWork s lid) := by
  unfold endWriteUnitOfWork
  by_cases h1 : ((getLocker s lid).wuowNestingLevel == 0) = true
  · rw [if_pos h1]
    exact hok
  · rw [if_neg h1]
    by_cases h2 : (getLocker s lid).wuowNestingLevel > 1
    · rw [if_pos h2]
      exact stateOk_updateLocker hok lid _
    · rw [if_neg h2]
      refine stateOk_foldl ?_ (getLocker s lid).held _ (stateOk_updateLocker hok lid _)
      intro s' r h'
      cases hreq : getRequest s' lid r with
      | none => exact h'
      | some req =>
        dsimp only
        by_cases h3 : req.unlockPending > 0
        · rw [if_pos h3]
          refine stateOk_natRepeat (fun a ha => stateOk_unlockImpl ha lid r) _ _ ?_
          exact stateOk_modifyHeadRequest h' r lid
            (f := fun q => { q with unlockPending := 0 }) fun q => rfl
        · rw [if_neg h3]
          exact h'

theorem stateOk_saveLockStateAndUnlock {s : LMState} (hok : stateOk s) (lid : Nat) :
    stateOk (saveLockStateAndUnlock s lid).2.2 := by
  unfold saveLockStateAndUnlock
  cases hreq : getRequest s lid globalResId with
  | none => exact hok
  | some g =>
    dsimp only
    by_cases h1 : g.recursiveCount > 1
    · rw [if_pos h1]
      exact hok
    · rw [if_neg h1]
      refine stateOk_foldl (fun s' r h' => stateOk_unlock h' lid r) _ _ ?_
      exact stateOk_unlock hok lid globalResId

theorem stateOk_restoreLockState {s : LMState} (hok : stateOk s) (lid : Nat)
    (snap : LockSnapshot) : stateOk (restoreLockState s lid snap) := by
  unfold restoreLockState
  refine stateOk_foldl (fun s' rm h' => stateOk_lock h' lid rm.1 rm.2 none) _ _ ?_
  exact stateOk_lock hok lid globalResId snap.globalMode none

theorem stateOk_applyOp {s : LMState} (hok : stateOk s) (op : LockerOp) :
    stateOk (applyOp s op) := by
  cases op with
  | opLockBegin lid r m => exact stateOk_lockBegin hok lid r m
  | opLockComplete lid r dl cd => exact stateOk_lockComplete hok lid r dl cd
  | opLock lid r m dl => exact stateOk_lock hok lid r m dl
  | opLockGlobal lid m => exact stateOk_lock hok lid globalResId m none
  | opUnlock lid r => exact stateOk_unlock hok lid r
  | opUnlockGlobal lid => exact stateOk_unlock hok lid globalResId
  | opBeginWUOW lid => exact stateOk_updateLocker hok lid _
  | opEndWUOW lid => exact stateOk_endWriteUnitOfWork hok lid
  | opSetSharedTwoPhase lid b => exact stateOk_updateLocker hok lid _
  | opSetMaxLockTimeout lid t => exact stateOk_updateLocker hok lid _
  | opSave lid => exact stateOk_saveLockStateAndUnlock hok lid
  | opRestore lid snap => exact stateOk_restoreLockState hok lid snap

theorem stateOk_applyOps (ops : List LockerOp) : stateOk (applyOps ops initialState) := by
  refine stateOk_foldl (fun s op h => stateOk_applyOp h op) ops initialState ?_
  intro p hp
  simp [initialState] at hp

/-! ### Cancellation fully removes the caller's waiting request -/

theorem grantQueueGo_conflict_sub (g : List LockRequest) (c : LockMode → Nat) :
    ∀ (queue : List LockRequest) (q : LockRequest),
      q ∈ (grantQueueGo g c queue).2.2 → q ∈ queue := by
  intro queue
  induction queue generalizing g c with
  | nil => intro q hq; simpa [grantQueueGo] using hq
  | cons x rest ih =>
    intro q hq
    unfold grantQueueGo at hq
    by_cases hcond : (compatibleWithGrantedCounts c x.mode && pendingConversionsOk g x.mode) = true
    · rw [if_pos hcond] at hq
      exact List.mem_cons_of_mem x (ih _ _ q hq)
    · rw [if_neg hcond] at hq
      exact hq

theorem grantConvLoop_conflict_eq :
    ∀ (fuel : Nat) (h : LockHead), (grantConvLoop fuel h).conflictList = h.conflictList := by
  intro fuel
  induction fuel with
  | zero => intro h; rfl
  | succ n ih =>
    intro h
    unfold grantConvLoop
    cases hfind : findGrantableConvAux [] h.grantedList with
    | none => rfl
    | some pqr =>
      obtain ⟨pre, q, post⟩ := pqr
      exact ih _

theorem scheduleWaiters_conflict_sub (h : LockHead) :
    ∀ q ∈ (scheduleWaiters h).conflictList, q ∈ h.conflictList := by
  intro q hq
  unfold scheduleWaiters at hq
  dsimp only at hq
  have h1 := grantQueueGo_conflict_sub (grantConvLoop (h.grantedList.length + 1) h).grantedList
    (grantConvLoop (h.grantedList.length + 1) h).grantedCounts
    (grantConvLoop (h.grantedList.length + 1) h).conflictList q hq
  rw [grantConvLoop_conflict_eq] at h1
  exact h1

theorem findHead_setHeadOpt {hs : List (ResourceId × LockHead)}
    (hkeys : (hs.map (·.1)).Nodup) (r : ResourceId) (new : Option LockHead) :
    findHead (setHeadOpt r new hs) r = new := by
  induction hs with
  | nil =>
    cases new with
    | none => rfl
    | some h => simp [setHeadOpt, findHead]
  | cons x xs ih =>
    rw [List.map_cons, List.nodup_cons] at hkeys
    unfold setHeadOpt
    by_cases hx : (x.1 == r) = true
    · rw [if_pos hx]
      cases new with
      | none =>
        have hxr : x.1 = r := by simpa using hx
        unfold findHead
        cases hfind : xs.find? fun p => p.1 == r with
        | none => simp [hfind]
        | some p =>
          exfalso
          have hmem := List.mem_of_find?_eq_some hfind
          have hpr : p.1 = r := by
            have := List.find?_some hfind
            simp at this
            exact this
          exact hkeys.1 (by
            rw [hxr, ← hpr]
            exact List.mem_map.2 ⟨p, hmem, rfl⟩)
      | some h => simp [findHead]
    · rw [if_neg hx]
      unfold findHead
      rw [List.find?_cons_of_neg _ (by simpa using hx)]
      exact ih hkeys.2

theorem cancelRequest_waiting_removes {s : LMState} (hkeys : (s.heads.map (·.1)).Nodup)
    (lid : Nat) (r : ResourceId) :
    ∀ q ∈ conflictRequestsOf (cancelRequest s lid r STATUS_WAITING) r, q.lockerId ≠ lid := by
  intro q hq
  unfold cancelRequest at hq
  cases hfind : findHead s.heads r with
  | none =>
    rw [hfind] at hq
    unfold conflictRequestsOf at hq
    rw [hfind] at hq
    simp at hq
  | some h =>
    rw [hfind] at hq
    dsimp only at hq
    rw [if_pos (by rfl)] at hq
    unfold conflictRequestsOf at hq
    have hfh : findHead (removeHeld (writeHead s r (cancelWaitingHead h lid)) lid r).heads r
        = cancelWaitingHead h lid := by
      show findHead (setHeadOpt r (cancelWaitingHead h lid) s.heads) r = _
      exact findHead_setHeadOpt hkeys r _
    rw [hfh] at hq
    cases hcan : cancelWaitingHead h lid with
    | none => rw [hcan] at hq; simp at hq
    | some h' =>
      rw [hcan] at hq
      unfold cancelWaitingHead deleteIfEmpty at hcan
      split at hcan
      · exact absurd hcan (by simp)
      · simp only [Option.some_inj] at hcan
        rw [← hcan] at hq
        have h2 := scheduleWaiters_conflict_sub _ q hq
        simp only [List.mem_filter] at h2
        intro heq
        rw [heq] at h2
        simp at h2

/-- A timed-out or deadlocked wait on a fresh (still-waiting, non-upgrade)
request leaves no request of that Locker in the resource's waiting list. -/
theorem lockComplete_cancel_removes_waiter {s : LMState} {lid : Nat} {r : ResourceId}
    {dl : Option Nat} {cd : Bool} {req : LockRequest}
    (hkeys : (s.heads.map (·.1)).Nodup)
    (hreq : getRequest s lid r = some req) (hst : req.status = STATUS_WAITING)
    (hres : (lockComplete s lid r dl cd).1 = LOCK_TIMEOUT
      ∨ (lockComplete s lid r dl cd).1 = LOCK_DEADLOCK) :
    ∀ q ∈ conflictRequestsOf (lockComplete s lid r dl cd).2 r, q.lockerId ≠ lid := by
  unfold lockComplete at hres ⊢
  rw [hreq] at hres ⊢
  dsimp only at hres ⊢
  simp only [hst] at hres ⊢
  by_cases h1 : (cd && hasCycle s lid) = true
  · rw [if_pos h1] at hres ⊢
    exact cancelRequest_waiting_removes hkeys lid r
  · rw [if_neg h1] at hres ⊢
    cases hdl : combineDeadline dl (getLocker s lid).maxLockTimeout with
    | some d =>
      exact cancelRequest_waiting_removes hkeys lid r
    | none =>
      rw [hdl] at hres
      rcases hres with h | h <;> exact LockResult.noConfusion h

/-! ### Iterated global acquisition and release -/

theorem lockGlobal_initial (m : LockMode) :
    lockGlobal initialState 1 m = (LOCK_OK, gmState m 1) := by
  cases m <;> rfl

theorem lockGlobal_gmState (m : LockMode) (n : Nat) :
    lockGlobal (gmState m (n + 1)) 1 m = (LOCK_OK, gmState m (n + 2)) := by
  cases m <;> rfl

theorem lockGlobalN_eq (m : LockMode) : ∀ n : Nat, lockGlobalN (n + 1) m = gmState m (n + 1) := by
  intro n
  induction n with
  | zero =>
    show (lockGlobal initialState 1 m).2 = _
    rw [lockGlobal_initial]
  | succ k ih =>
    show (lockGlobal (lockGlobalN (k + 1) m) 1 m).2 = _
    rw [ih, lockGlobal_gmState]

theorem unlockGlobal_gmState (m : LockMode) (k : Nat) :
    unlockGlobal (gmState m (k + 2)) 1 = (false, gmState m (k + 1)) := by
  cases m <;> rfl

theorem unlockGlobal_gmState_one (m : LockMode) :
    unlockGlobal (gmState m 1) 1 = (true, gmReleased) := by
  cases m <;> rfl

theorem unlockGlobalN_gmState (m : LockMode) :
    ∀ j n : Nat, unlockGlobalN j (gmState m (j + n + 1)) = gmState m (n + 1) := by
  intro j
  induction j with
  | zero =>
    intro n
    show gmState m (0 + n + 1) = gmState m (n + 1)
    rw [Nat.zero_add]
  | succ i ih =>
    intro n
    show (unlockGlobal (unlockGlobalN i (gmState m (i + 1 + n + 1))) 1).2 = _
    have e : i + 1 + n + 1 = i + (n + 1) + 1 := by omega
    rw [e, ih (n + 1)]
    rw [unlockGlobal_gmState]

theorem save_gmState_one (m : LockMode) :
    saveLockStateAndUnlock (gmState m 1) 1 = (true, ⟨m, []⟩, gmReleased) := by
  cases m <;> rfl

theorem save_gmState_many (m : LockMode) (k : Nat) :
    saveLockStateAndUnlock (gmState m (k + 2)) 1 = (false, emptySnapshot, gmState m (k + 2)) := by
  unfold saveLockStateAndUnlock
  rw [show getRequest (gmState m (k + 2)) 1 globalResId
      = some ⟨1, m, MODE_NONE, STATUS_GRANTED, k + 2, 0⟩ from rfl]
  dsimp only
  rw [if_pos (by omega : k + 2 > 1)]

theorem isLocked_gmState (m : LockMode) (n : Nat) (hm : ¬ m = MODE_NONE) :
    isLocked (gmState m (n + 1)) 1 = true := by
  cases m with
  | MODE_NONE => exact absurd rfl hm
  | MODE_IS => rfl
  | MODE_IX => rfl
  | MODE_S => rfl
  | MODE_X => rfl

/-! ### The conversion-with-pending-unlock scenario, step by step -/

theorem cS0_eq : cS0 = wuSt 1 0 MODE_IX cIX 0 0 := rfl

theorem relock_wuSt (n : Nat) (c : LockMode → Nat) (wu nres : Nat) :
    lock (wuSt (n + 1) 0 MODE_IX c wu nres) 1 tcoll MODE_IX none
      = (LOCK_OK, wuSt (n + 2) 0 MODE_IX c wu nres) := rfl

theorem cS1_eq : ∀ k : Nat, cS1 k = wuSt (k + 1) 0 MODE_IX cIX 0 0 := by
  intro k
  induction k with
  | zero => exact cS0_eq
  | succ j ih =>
    show (lock (cS1 j) 1 tcoll MODE_IX none).2 = _
    rw [ih, relock_wuSt]

theorem begin_wuSt (rc up : Nat) (md : LockMode) (c : LockMode → Nat) (nres : Nat) :
    beginWriteUnitOfWork (wuSt rc up md c 0 nres) 1 = wuSt rc up md c 1 nres := rfl

theorem unlock_wuSt_first (rc : Nat) (c : LockMode → Nat) :
    unlock (wuSt rc 0 MODE_IX c 1 0) 1 tcoll = (false, wuSt rc 1 MODE_IX c 1 1) := rfl

theorem convert_wuSt (rc : Nat) (c : LockMode → Nat) (wu nres : Nat) :
    lock (wuSt rc 1 MODE_IX c wu nres) 1 tcoll MODE_X none
      = (LOCK_OK, wuSt (rc + 1) 1 MODE_X (incCount (decCount c MODE_IX) MODE_X) wu nres) := rfl

theorem unlock_wuSt_second (rc : Nat) (c : LockMode → Nat) :
    unlock (wuSt rc 1 MODE_X c 1 1) 1 tcoll = (false, wuSt rc 2 MODE_X c 1 1) := rfl

theorem end_wuSt_surplus (j : Nat) (c : LockMode → Nat) :
    endWriteUnitOfWork (wuSt (j + 3) 2 MODE_X c 1 1) 1 = wuSt (j + 1) 0 MODE_X c 0 0 := rfl

theorem end_wuSt_exact (c : LockMode → Nat) :
    endWriteUnitOfWork (wuSt 2 2 MODE_X c 1 1) 1 = wuDone := rfl

/-! ### Save/restore round trip for an arbitrary set of held locks -/

theorem beq_false_of_ne {r r' : ResourceId} (h : ¬ r = r') : (r == r') = false :=
  beq_eq_false_iff_ne.mpr h

theorem findHead_eq_none_of_not_mem {hs : List (ResourceId × LockHead)} {r : ResourceId}
    (h : ¬ r ∈ hs.map (·.1)) : findHead hs r = none := by
  induction hs with
  | nil => rfl
  | cons p rest ih =>
    unfold findHead
    rw [List.find?_cons_of_neg]
    · exact ih fun hm => h (by simp at hm ⊢; exact Or.inr hm)
    · have : ¬ p.1 = r := fun e => h (by simp [← e])
      simpa using beq_false_of_ne this

theorem setHeadOpt_append_of_not_mem {hs : List (ResourceId × LockHead)} {r : ResourceId}
    (h : ¬ r ∈ hs.map (·.1)) (nh : LockHead) :
    setHeadOpt r (some nh) hs = hs ++ [(r, nh)] := by
  induction hs with
  | nil => rfl
  | cons p rest ih =>
    unfold setHeadOpt
    have hp : ¬ p.1 = r := fun e => h (by simp [← e])
    rw [if_neg (by simpa using beq_false_of_ne hp)]
    rw [ih fun hm => h (by simp at hm ⊢; exact Or.inr hm)]
    rfl

theorem newRequest_initNew (r : ResourceId) (m : LockMode) :
    newRequestHead (LockHead.initNew r) 1 m = (LOCK_OK, singleHead r m) := rfl

theorem lockBegin_buildState (gm : LockMode) (done : List (ResourceId × LockMode))
    (r : ResourceId) (m : LockMode)
    (hr : ¬ r ∈ done.map (·.1)) (hg : ¬ r = globalResId) :
    lockBegin (buildState gm done) 1 r m = (LOCK_OK, buildState gm (done ++ [(r, m)])) := by
  have hkeys : ¬ r ∈ (buildState gm done).heads.map (·.1) := by
    simp only [buildState, List.map_cons, List.map_map, List.mem_cons]
    rintro (h1 | h2)
    · exact hg h1
    · refine hr ?_
      simp only [List.mem_map] at h2 ⊢
      obtain ⟨rm, hrm, he⟩ := h2
      exact ⟨rm, hrm, he⟩
  have hfind : findHead (buildState gm done).heads r = none :=
    findHead_eq_none_of_not_mem hkeys
  have hreq : getRequest (buildState gm done) 1 r = none := by
    unfold getRequest
    rw [hfind]
    rfl
  unfold lockBegin
  rw [hreq]
  dsimp only
  rw [show findHead (addHeld (buildState gm done) 1 r).heads r = none from hfind]
  dsimp only [Option.getD]
  rw [newRequest_initNew]
  dsimp only
  unfold writeHead
  rw [show (addHeld (buildState gm done) 1 r).heads = (buildState gm done).heads from rfl,
    setHeadOpt_append_of_not_mem hkeys]
  simp [buildState, addHeld, updateLocker, getLocker, setLocker]

theorem lock_buildState (gm : LockMode) (done : List (ResourceId × LockMode))
    (r : ResourceId) (m : LockMode)
    (hr : ¬ r ∈ done.map (·.1)) (hg : ¬ r = globalResId) :
    lock (buildState gm done) 1 r m none = (LOCK_OK, buildState gm (done ++ [(r, m)])) := by
  unfold lock
  rw [lockBegin_buildState gm done r m hr hg]

theorem foldl_lock_buildState (gm : LockMode) :
    ∀ (rest done : List (ResourceId × LockMode)),
      ((done ++ rest).map (·.1)).Nodup → (∀ rm ∈ done ++ rest, ¬ rm.1 = globalResId) →
      rest.foldl (fun acc rm => (lock acc 1 rm.1 rm.2 none).2) (buildState gm done)
        = buildState gm (done ++ rest) := by
  intro rest
  induction rest with
  | nil => intro done h1 h2; simp
  | cons rm rest ih =>
    intro done h1 h2
    show rest.foldl _ (lock (buildState gm done) 1 rm.1 rm.2 none).2 = _
    have hr : ¬ rm.1 ∈ done.map (·.1) := by
      intro hmem
      have h1' : (done.map (·.1) ++ rm.1 :: rest.map (·.1)).Nodup := by
        simpa [List.map_append] using h1
      rw [List.nodup_append] at h1'
      exact h1'.2.2 hmem (by simp)
    have hg : ¬ rm.1 = globalResId := h2 rm (by simp)
    rw [lock_buildState gm done rm.1 rm.2 hr hg]
    have e1 : done ++ [(rm.1, rm.2)] ++ rest = done ++ rm :: rest := by simp
    have := ih (done ++ [(rm.1, rm.2)])
      (by rw [e1]; exact h1) (by rw [e1]; exact h2)
    rw [this, e1]

theorem filter_keep {l : List ResourceId} {a : ResourceId} (h : ∀ x ∈ l, ¬ x = a) :
    l.filter (fun x => !(x == a)) = l := by
  induction l with
  | nil => rfl
  | cons x rest ih =>
    rw [List.filter_cons]
    rw [if_pos (by simpa using beq_false_of_ne (h x (by simp)))]
    rw [ih fun y hy => h y (by simp [hy])]

theorem filter_remove {held1 held2 : List ResourceId} {r : ResourceId}
    (h1 : ∀ x ∈ held1, ¬ x = r) (h2 : ∀ x ∈ held2, ¬ x = r) :
    (held1 ++ r :: held2).filter (fun x => !(x == r)) = held1 ++ held2 := by
  rw [List.filter_append, filter_keep h1, List.filter_cons]
  rw [if_neg (by simp)]
  rw [filter_keep h2]

theorem findHead_append_cons {pre : List (ResourceId × LockHead)} {r : ResourceId}
    {h : LockHead} (post : List (ResourceId × LockHead))
    (hpre : ∀ p ∈ pre, ¬ p.1 = r) :
    findHead (pre ++ (r, h) :: post) r = some h := by
  induction pre with
  | nil =>
    unfold findHead
    rw [List.nil_append, List.find?_cons_of_pos _ (by simp)]
    rfl
  | cons p rest ih =>
    unfold findHead
    rw [List.cons_append, List.find?_cons_of_neg _ (by simpa using beq_false_of_ne (hpre p (by simp)))]
    exact ih fun p' hp' => hpre p' (by simp [hp'])

theorem setHeadOpt_none_append_cons {pre : List (ResourceId × LockHead)} {r : ResourceId}
    {h : LockHead} (post : List (ResourceId × LockHead))
    (hpre : ∀ p ∈ pre, ¬ p.1 = r) :
    setHeadOpt r none (pre ++ (r, h) :: post) = pre ++ post := by
  induction pre with
  | nil =>
    show setHeadOpt r none ((r, h) :: post) = [] ++ post
    unfold setHeadOpt
    rw [if_pos (by simp)]
    rfl
  | cons p rest ih =>
    show setHeadOpt r none (p :: (rest ++ (r, h) :: post)) = _
    unfold setHeadOpt
    rw [if_neg (by simpa using beq_false_of_ne (hpre p (by simp)))]
    rw [ih fun p' hp' => hpre p' (by simp [hp'])]
    rfl

/-- Releasing a singly-held resource outside any write scope: the request
and its Lock Head disappear and the Locker's bookkeeping drops it. -/
theorem unlock_single_general (r : ResourceId) (m : LockMode)
    (pre post : List (ResourceId × LockHead)) (held1 held2 : List ResourceId)
    (hpre : ∀ p ∈ pre, ¬ p.1 = r)
    (hh1 : ∀ x ∈ held1, ¬ x = r) (hh2 : ∀ x ∈ held2, ¬ x = r) :
    unlock ⟨pre ++ (r, singleHead r m) :: post, [(1, ⟨held1 ++ r :: held2, 0, false, none, 0⟩)]⟩ 1 r
      = (true, ⟨pre ++ post, [(1, ⟨held1 ++ held2, 0, false, none, 0⟩)]⟩) := by
  have hfind : findHead (pre ++ (r, singleHead r m) :: post) r = some (singleHead r m) :=
    findHead_append_cons post hpre
  have hreq : getRequest ⟨pre ++ (r, singleHead r m) :: post,
      [(1, ⟨held1 ++ r :: held2, 0, false, none, 0⟩)]⟩ 1 r
      = some ⟨1, m, MODE_NONE, STATUS_GRANTED, 1, 0⟩ := by
    unfold getRequest
    rw [hfind]
    rfl
  have hfinal : removeHeld (writeHead ⟨pre ++ (r, singleHead r m) :: post,
      [(1, ⟨held1 ++ r :: held2, 0, false, none, 0⟩)]⟩ r none) 1 r
      = (⟨pre ++ post, [(1, ⟨held1 ++ held2, 0, false, none, 0⟩)]⟩ : LMState) := by
    show (⟨setHeadOpt r none (pre ++ (r, singleHead r m) :: post),
      [(1, ⟨(held1 ++ r :: held2).filter (fun x => !(x == r)), 0, false, none, 0⟩)]⟩ : LMState) = _
    rw [setHeadOpt_none_append_cons post hpre, filter_remove hh1 hh2]
  unfold unlock
  rw [hreq]
  dsimp only
  rw [if_neg (fun hc => Bool.noConfusion hc)]
  unfold unlockImpl
  rw [hreq]
  dsimp only
  rw [if_pos (by omega : (1 : Nat) ≤ 1)]
  rw [hfind]
  dsimp only
  rw [show releaseHead (singleHead r m) 1 = none from rfl]
  rw [hfinal]

theorem not_mem_fst_of_forall {pairs : List (ResourceId × LockMode)} {a : ResourceId}
    (h : ∀ rm ∈ pairs, ¬ rm.1 = a) : ∀ x ∈ pairs.map (·.1), ¬ x = a := by
  intro x hx
  simp only [List.mem_map] at hx
  obtain ⟨rm, hrm, rfl⟩ := hx
  exact h rm hrm

theorem unlockGlobal_buildState (gm : LockMode) (pairs : List (ResourceId × LockMode))
    (hng : ∀ rm ∈ pairs, ¬ rm.1 = globalResId) :
    unlockGlobal (buildState gm pairs) 1 = (true, midState pairs) := by
  have := unlock_single_general globalResId gm []
    (pairs.map fun rm => (rm.1, singleHead rm.1 rm.2)) [] (pairs.map (·.1))
    (by simp) (by simp) (not_mem_fst_of_forall hng)
  simpa [buildState, midState] using this

theorem unlock_midState_front (r : ResourceId) (m : LockMode)
    (rest : List (ResourceId × LockMode)) (hr : ∀ x ∈ rest.map (·.1), ¬ x = r) :
    unlock (midState ((r, m) :: rest)) 1 r = (true, midState rest) := by
  have := unlock_single_general r m []
    (rest.map fun rm => (rm.1, singleHead rm.1 rm.2)) [] (rest.map (·.1))
    (by simp) (by simp) hr
  simpa [midState] using this

theorem unlock_buildState_front (gm : LockMode) (r : ResourceId) (m : LockMode)
    (rest : List (ResourceId × LockMode)) (hg : ¬ r = globalResId)
    (hr : ∀ x ∈ rest.map (·.1), ¬ x = r) :
    unlock (buildState gm ((r, m) :: rest)) 1 r = (true, buildState gm rest) := by
  have := unlock_single_general r m [(globalResId, singleHead globalResId gm)]
    (rest.map fun rm => (rm.1, singleHead rm.1 rm.2)) [globalResId] (rest.map (·.1))
    (by intro p hp; simp at hp; rw [hp]; exact fun e => hg e.symm)
    (by intro x hx; simp at hx; rw [hx]; exact fun e => hg e.symm) hr
  simpa [buildState, midState] using this

theorem foldl_unlock_midState :
    ∀ pairs : List (ResourceId × LockMode), (pairs.map (·.1)).Nodup →
      (pairs.map (·.1)).foldl (fun acc r => (unlock acc 1 r).2) (midState pairs) = gmReleased := by
  intro pairs
  induction pairs with
  | nil => intro h; rfl
  | cons rm rest ih =>
    intro hnd
    rw [List.map_cons, List.nodup_cons] at hnd
    show (rest.map (·.1)).foldl _ (unlock (midState ((rm.1, rm.2) :: rest)) 1 rm.1).2 = _
    rw [show ((rm.1, rm.2) : ResourceId × LockMode) = rm from rfl]
    rw [unlock_midState_front rm.1 rm.2 rest (fun x hx e => hnd.1 (e ▸ hx))]
    exact ih hnd.2

theorem unlockAll_buildState (gm : LockMode) :
    ∀ pairs : List (ResourceId × LockMode), (pairs.map (·.1)).Nodup →
      (∀ rm ∈ pairs, ¬ rm.1 = globalResId) →
      unlockAll (buildState gm pairs) (pairs.map (·.1)) = (true, buildState gm []) := by
  intro pairs
  induction pairs with
  | nil => intro h1 h2; rfl
  | cons rm rest ih =>
    intro hnd hng
    rw [List.map_cons, List.nodup_cons] at hnd
    show (let br := unlock (buildState gm ((rm.1, rm.2) :: rest)) 1 rm.1
      let rec' := unlockAll br.2 (rest.map (·.1))
      (br.1 && rec'.1, rec'.2)) = _
    rw [show ((rm.1, rm.2) : ResourceId × LockMode) = rm from rfl]
    rw [unlock_buildState_front gm rm.1 rm.2 rest (hng rm (by simp))
      (fun x hx e => hnd.1 (e ▸ hx))]
    dsimp only
    rw [ih hnd.2 (fun rm' hrm' => hng rm' (by simp [hrm']))]
    rfl

theorem find_pairsmap {pairs : List (ResourceId × LockMode)}
    (hnd : (pairs.map (·.1)).Nodup) {r : ResourceId} {m : LockMode}
    (hmem : (r, m) ∈ pairs) :
    List.find? (fun p => p.1 == r) (pairs.map fun rm => (rm.1, singleHead rm.1 rm.2))
      = some (r, singleHead r m) := by
  induction pairs with
  | nil => cases hmem
  | cons q rest ih =>
    rw [List.map_cons, List.nodup_cons] at hnd
    rw [List.map_cons]
    rcases List.mem_cons.1 hmem with heq | hmem2
    · rw [← heq]
      rw [List.find?_cons_of_pos _ (by simp)]
    · have hq : ¬ q.1 = r := by
        intro e
        exact hnd.1 (e ▸ List.mem_map.2 ⟨(r, m), hmem2, rfl⟩)
      rw [List.find?_cons_of_neg _ (by simpa using beq_false_of_ne hq)]
      exact ih hnd.2 hmem2

theorem findHead_buildState {gm : LockMode} {pairs : List (ResourceId × LockMode)}
    (hnd : (pairs.map (·.1)).Nodup) {r : ResourceId} {m : LockMode}
    (hmem : (r, m) ∈ pairs) (hg : ¬ r = globalResId) :
    findHead (buildState gm pairs).heads r = some (singleHead r m) := by
  unfold findHead buildState
  rw [List.find?_cons_of_neg _
    (by simpa using beq_false_of_ne fun e => hg e.symm)]
  rw [find_pairsmap hnd hmem]
  rfl

theorem getLockMode_buildState {gm : LockMode} {pairs : List (ResourceId × LockMode)}
    (hnd : (pairs.map (·.1)).Nodup) {r : ResourceId} {m : LockMode}
    (hmem : (r, m) ∈ pairs) (hg : ¬ r = globalResId) :
    getLockMode (buildState gm pairs) 1 r = m := by
  unfold getLockMode getRequest
  rw [findHead_buildState hnd hmem hg]
  rfl

theorem save_buildState (gm : LockMode) (pairs : List (ResourceId × LockMode))
    (hnd : (pairs.map (·.1)).Nodup) (hng : ∀ rm ∈ pairs, ¬ rm.1 = globalResId) :
    saveLockStateAndUnlock (buildState gm pairs) 1 = (true, ⟨gm, pairs⟩, gmReleased) := by
  unfold saveLockStateAndUnlock
  rw [show getRequest (buildState gm pairs) 1 globalResId
      = some ⟨1, gm, MODE_NONE, STATUS_GRANTED, 1, 0⟩ from rfl]
  dsimp only
  rw [if_neg (by omega : ¬ (1 : Nat) > 1)]
  have hothers : (getLocker (buildState gm pairs) 1).held.filter (fun x => !(x == globalResId))
      = pairs.map (·.1) := by
    show (globalResId :: pairs.map (·.1)).filter (fun x => !(x == globalResId)) = _
    rw [List.filter_cons, if_neg (by simp)]
    exact filter_keep (not_mem_fst_of_forall hng)
  rw [hothers]
  have hsnap : (pairs.map (·.1)).map (fun r => (r, getLockMode (buildState gm pairs) 1 r))
      = pairs := by
    rw [List.map_map]
    have hpt : ∀ rm ∈ pairs,
        ((fun r => (r, getLockMode (buildState gm pairs) 1 r)) ∘ fun x => x.1) rm = id rm := by
      intro rm hrm
      show (rm.1, getLockMode (buildState gm pairs) 1 rm.1) = rm
      rw [getLockMode_buildState hnd hrm (hng rm hrm)]
    rw [List.map_congr_left hpt, List.map_id]
  rw [hsnap]
  rw [show (unlockGlobal (buildState gm pairs) 1).2 = midState pairs
    from congrArg Prod.snd (unlockGlobal_buildState gm pairs hng)]
  rw [foldl_unlock_midState pairs hnd]

theorem lockGlobal_fresh (gm : LockMode) :
    lockGlobal initialState 1 gm = (LOCK_OK, buildState gm []) := rfl

theorem lockGlobal_released (gm : LockMode) :
    lockGlobal gmReleased 1 gm = (LOCK_OK, buildState gm []) := rfl

theorem restore_builds (gm : LockMode) (pairs : List (ResourceId × LockMode)) (s0 : LMState)
    (h0 : (lockGlobal s0 1 gm).2 = buildState gm [])
    (hnd : (pairs.map (·.1)).Nodup) (hng : ∀ rm ∈ pairs, ¬ rm.1 = globalResId) :
    restoreLockState s0 1 ⟨gm, pairs⟩ = buildState gm pairs := by
  unfold restoreLockState
  dsimp only
  rw [h0]
  have := foldl_lock_buildState gm pairs [] (by simpa using hnd)
    (by intro rm hrm; simp at hrm; exact hng rm hrm)
  simpa using this

/-! ## Claims -/

/-- C1: after any sequence of Locker API calls, every resource's Lock Head
carries a pairwise-compatible multiset of granted modes and per-mode grant
counts equal to the cardinality of the granted list partitioned by mode;
in particular an S request against an X holder is not granted (it waits,
and the requester's mode stays None), and with two S holders an upgrade to
X is not granted (the upgrading Locker keeps holding S). -/
theorem C1_compatibility_invariant :
    (∀ ops : List LockerOp, tableOkB (applyOps ops initialState).heads = true)
    ∧ (lockBegin sC0 2 tcoll MODE_S).1 = LOCK_WAITING
    ∧ getLockMode (lockBegin sC0 2 tcoll MODE_S).2 2 tcoll = MODE_NONE
    ∧ (lockBegin sD2 1 tcoll MODE_X).1 = LOCK_WAITING
    ∧ getLockMode (lockBegin sD2 1 tcoll MODE_X).2 1 tcoll = MODE_S :=
  ⟨fun ops => (tableOkB_iff _).2 (stateOk_applyOps ops),
   by decide, by decide, by decide, by decide⟩

/-- C3 counterexample: in the claim's own two-Locker cycle (locker 1 holds
db1 in S and waits for db2 in X; locker 2 holds db2 in X and waits for db1
in X), locker 2's deadlock-checked `lockComplete` returns Deadlock — but
the other side's equivalent call then returns Timeout, not Ok: the
cancelled Locker still holds db2 in X, so the claim's "the other side's
equivalent lockComplete call subsequently succeeds" is false here. -/
theorem C3_counterexample :
    sCE1.1 = LOCK_DEADLOCK ∧ sCE2.1 = LOCK_TIMEOUT ∧ ¬ sCE2.1 = LOCK_OK := by
  refine ⟨by decide, by decide, by decide⟩

/-- C3 (amended): a deadlock-checked `lockComplete` that observes the
cycle returns Deadlock and cancels only the caller's own pending request
(removed from the waiting list, while the other participant's pending
request and the caller's granted locks are untouched); requests queued
behind the cancelled one can then be granted (locker 3's S request
completes Ok). The other cycle participant's equivalent call still returns
Timeout as long as the cancelled Locker holds its granted lock, and
succeeds once that lock is released. -/
theorem C3_deadlock_cancellation :
    sE6.1 = LOCK_DEADLOCK
    ∧ getRequest sE6.2 2 ddb1 = none
    ∧ (getRequest sE6.2 1 ddb2).isSome = true
    ∧ getLockMode sE6.2 2 ddb2 = MODE_X
    ∧ sE7.1 = LOCK_OK
    ∧ sE8.1 = LOCK_TIMEOUT
    ∧ getLockMode sE8.2 1 ddb1 = MODE_S
    ∧ getLockMode sE8.2 2 ddb1 = MODE_NONE
    ∧ getLockMode sE8.2 3 ddb1 = MODE_S
    ∧ getLockMode sE8.2 1 ddb2 = MODE_NONE
    ∧ getLockMode sE8.2 2 ddb2 = MODE_X
    ∧ (lock sE9 1 ddb2 MODE_X (some 0)).1 = LOCK_OK := by
  and_intros <;> decide

/-- C4 counterexample: a lock attempt that is an upgrade (locker 1, holding
tcoll in S beside another S holder, requests X) ends in Timeout, yet the
caller does not hold the resource at mode None afterwards — it still holds
S, refuting the claim's "the caller holds the resource at mode None
afterward". -/
theorem C4_counterexample :
    sD3.1 = LOCK_TIMEOUT ∧ getLockMode sD3.2 1 tcoll = MODE_S
      ∧ ¬ getLockMode sD3.2 1 tcoll = MODE_NONE := by
  refine ⟨by decide, by decide, by decide⟩

/-- C4 (amended): whenever a lock attempt ends in Timeout or Deadlock the
caller's request is fully removed from the resource's waiting list before
the call returns; a fresh (non-upgrade) attempt leaves the caller at mode
None, while a failed upgrade reverts to the previously granted mode. In
particular (the §8 scenario, for every finite deadline): with one Locker
holding R in X, a second Locker's `lock(R, S)` with an elapsed deadline
returns Timeout, its mode on R is None and the waiting list is empty
again; and a failed upgrade ends with a granted (non-converting) request
at the old mode. -/
theorem C4_cancel_removes_request :
    (∀ (s : LMState) (lid : Nat) (r : ResourceId) (dl : Option Nat) (cd : Bool)
        (req : LockRequest),
      (s.heads.map (·.1)).Nodup →
      getRequest s lid r = some req → req.status = STATUS_WAITING →
      ((lockComplete s lid r dl cd).1 = LOCK_TIMEOUT
        ∨ (lockComplete s lid r dl cd).1 = LOCK_DEADLOCK) →
      ∀ q ∈ conflictRequestsOf (lockComplete s lid r dl cd).2 r, q.lockerId ≠ lid)
    ∧ (∀ d : Nat,
      (lock sC0 2 tcoll MODE_S (some d)).1 = LOCK_TIMEOUT
      ∧ getLockMode (lock sC0 2 tcoll MODE_S (some d)).2 2 tcoll = MODE_NONE
      ∧ conflictRequestsOf (lock sC0 2 tcoll MODE_S (some d)).2 tcoll = [])
    ∧ (∀ d : Nat,
      (lock sD2 1 tcoll MODE_X (some d)).1 = LOCK_TIMEOUT
      ∧ getLockMode (lock sD2 1 tcoll MODE_X (some d)).2 1 tcoll = MODE_S
      ∧ (getRequest (lock sD2 1 tcoll MODE_X (some d)).2 1 tcoll).map (·.status)
          = some STATUS_GRANTED) :=
  ⟨fun s lid r dl cd req hkeys hreq hst hres =>
      lockComplete_cancel_removes_waiter hkeys hreq hst hres,
   fun d => ⟨rfl, rfl, rfl⟩, fun d => ⟨rfl, rfl, rfl⟩⟩

/-- Witness for C4 at a concrete input: in the X-holder scenario, locker
2's waiting S request is removed from tcoll's waiting list after its
timed-out `lockComplete`. -/
theorem C4_cancel_removes_request_witness :
    ∀ q ∈ conflictRequestsOf
        (lockComplete (lockBegin sC0 2 tcoll MODE_S).2 2 tcoll (some 0) false).2 tcoll,
      q.lockerId ≠ 2 :=
  C4_cancel_removes_request.1 (lockBegin sC0 2 tcoll MODE_S).2 2 tcoll (some 0) false
    ⟨2, MODE_S, MODE_NONE, STATUS_WAITING, 1, 0⟩ (by decide) (by decide) rfl
    (Or.inl (by decide))

/-- C6: `saveLockStateAndUnlock` returns whether the global lock was
actually released. A Locker that acquired the global resource exactly once
gets true, an exact snapshot, and is fully unlocked; a Locker that
acquired it `k + 2` times gets false with an empty snapshot and an
untouched state (still locked), and `unlockGlobal` must still be called
once per acquisition — after `k + 1` calls it is still locked, the next
call returns true and only then is it unlocked; with no locks at all the
call returns false with an empty (zero-lock) snapshot. -/
theorem C6_save_reports_global_release :
    ((saveLockStateAndUnlock initialState 1).1 = false
      ∧ (saveLockStateAndUnlock initialState 1).2.1 = emptySnapshot)
    ∧ (∀ m : LockMode, ¬ m = MODE_NONE →
        (saveLockStateAndUnlock (lockGlobalN 1 m) 1).1 = true
        ∧ (saveLockStateAndUnlock (lockGlobalN 1 m) 1).2.1 = ⟨m, []⟩
        ∧ isLocked (saveLockStateAndUnlock (lockGlobalN 1 m) 1).2.2 1 = false)
    ∧ (∀ (m : LockMode) (k : Nat), ¬ m = MODE_NONE →
        (saveLockStateAndUnlock (lockGlobalN (k + 2) m) 1).1 = false
        ∧ (saveLockStateAndUnlock (lockGlobalN (k + 2) m) 1).2.1 = emptySnapshot
        ∧ (saveLockStateAndUnlock (lockGlobalN (k + 2) m) 1).2.2 = lockGlobalN (k + 2) m
        ∧ isLocked (saveLockStateAndUnlock (lockGlobalN (k + 2) m) 1).2.2 1 = true
        ∧ isLocked (unlockGlobalN (k + 1) (lockGlobalN (k + 2) m)) 1 = true
        ∧ (unlockGlobal (unlockGlobalN (k + 1) (lockGlobalN (k + 2) m)) 1).1 = true
        ∧ isLocked (unlockGlobalN (k + 2) (lockGlobalN (k + 2) m)) 1 = false) := by
  refine ⟨⟨by decide, by decide⟩, fun m hm => ?_, fun m k hm => ?_⟩
  · rw [show lockGlobalN 1 m = gmState m 1 from lockGlobalN_eq m 0, save_gmState_one]
    exact ⟨rfl, rfl, rfl⟩
  · rw [show lockGlobalN (k + 2) m = gmState m (k + 2) from lockGlobalN_eq m (k + 1),
      save_gmState_many]
    have h1 : unlockGlobalN (k + 1) (gmState m (k + 2)) = gmState m 1 :=
      unlockGlobalN_gmState m (k + 1) 0
    have h2 : unlockGlobalN (k + 2) (gmState m (k + 2))
        = (unlockGlobal (unlockGlobalN (k + 1) (gmState m (k + 2))) 1).2 := rfl
    refine ⟨rfl, rfl, rfl, isLocked_gmState m (k + 1) hm, ?_, ?_, ?_⟩
    · rw [h1]
      exact isLocked_gmState m 0 hm
    · rw [h1, unlockGlobal_gmState_one]
    · rw [h2, h1, unlockGlobal_gmState_one]
      rfl

/-- Witness for C6 at concrete inputs: mode IX, acquired once and twice. -/
theorem C6_save_reports_global_release_witness :
    ((saveLockStateAndUnlock (lockGlobalN 1 MODE_IX) 1).1 = true
      ∧ (saveLockStateAndUnlock (lockGlobalN 1 MODE_IX) 1).2.1 = ⟨MODE_IX, []⟩
      ∧ isLocked (saveLockStateAndUnlock (lockGlobalN 1 MODE_IX) 1).2.2 1 = false)
    ∧ ((saveLockStateAndUnlock (lockGlobalN 2 MODE_IX) 1).1 = false
      ∧ (saveLockStateAndUnlock (lockGlobalN 2 MODE_IX) 1).2.1 = emptySnapshot
      ∧ (saveLockStateAndUnlock (lockGlobalN 2 MODE_IX) 1).2.2 = lockGlobalN 2 MODE_IX
      ∧ isLocked (saveLockStateAndUnlock (lockGlobalN 2 MODE_IX) 1).2.2 1 = true
      ∧ isLocked (unlockGlobalN 1 (lockGlobalN 2 MODE_IX)) 1 = true
      ∧ (unlockGlobal (unlockGlobalN 1 (lockGlobalN 2 MODE_IX)) 1).1 = true
      ∧ isLocked (unlockGlobalN 2 (lockGlobalN 2 MODE_IX)) 1 = false) :=
  ⟨C6_save_reports_global_release.2.1 MODE_IX (by decide),
   C6_save_reports_global_release.2.2 MODE_IX 0 (by decide)⟩

/-- C8: after `setMaxLockTimeout`, a lock attempt that conflicts with
another holder returns Timeout for every caller-supplied deadline,
including an infinite one (and for every clamp value, including zero:
fail-fast), leaving the caller at mode None with nothing queued; a lock
attempt on an uncontested resource under the same setting returns Ok. -/
theorem C8_max_lock_timeout (t : Nat) (dl : Option Nat) :
    ((lock (setMaxLockTimeout sNB 2 t) 2 rFirst MODE_X dl).1 = LOCK_TIMEOUT
      ∧ getLockMode (lock (setMaxLockTimeout sNB 2 t) 2 rFirst MODE_X dl).2 2 rFirst = MODE_NONE
      ∧ conflictRequestsOf (lock (setMaxLockTimeout sNB 2 t) 2 rFirst MODE_X dl).2 rFirst = [])
    ∧ (lock (setMaxLockTimeout sNB 2 t) 2 rSecond MODE_X dl).1 = LOCK_OK := by
  cases dl <;> exact ⟨⟨rfl, rfl, rfl⟩, rfl⟩

/-- C9: in the global-lock transplant protocol, after the three parked
Lockers (each a saved IX holder of the global resource) have restored
their state against the temporary, detached global Lock Head and before
that head is discarded, the temporary head's granted list is non-empty,
its waiting (conflict) list is empty, and its per-mode grant counts
account exactly for the parked lockers: 3 for IX and 0 for X. -/
theorem C9_transplant_temporary_head_invariant :
    sT13.1.grantedList.isEmpty = false
    ∧ sT13.1.conflictList = []
    ∧ sT13.1.grantedCounts MODE_IX = 3
    ∧ sT13.1.grantedCounts MODE_X = 0
    ∧ sT13.1.grantedCounts MODE_IS = 0
    ∧ sT13.1.grantedCounts MODE_S = 0 := by
  refine ⟨by decide, by decide, by decide, by decide, by decide, by decide⟩

/-- C10: after `replaceGlobalLockStateWithTemporaryGlobalLockHead`
completes the transplant, the coordinating Locker that held the live
global resource exclusively holds it at mode None, every parked Locker
again holds the global resource and its other resources at exactly the
saved modes, and every global-lock request queued against the live global
Lock Head — one enqueued before the coordinator's exclusive acquisition
and one enqueued while the coordinator held it — is granted, so its
pending `lockGlobalComplete` returns Ok. -/
theorem C10_transplant_completion :
    sT4.1 = LOCK_WAITING
    ∧ sT5.1 = LOCK_WAITING
    ∧ sT9.1 = LOCK_OK
    ∧ sT10.1 = LOCK_WAITING
    ∧ getLockMode sT14 0 globalResId = MODE_NONE
    ∧ getLockMode sT14 1 globalResId = MODE_IX
    ∧ getLockMode sT14 1 tdb = MODE_IX
    ∧ getLockMode sT14 1 tc1 = MODE_IX
    ∧ getLockMode sT14 1 tc2 = MODE_IX
    ∧ getLockMode sT14 2 globalResId = MODE_IX
    ∧ getLockMode sT14 2 tdb = MODE_IX
    ∧ getLockMode sT14 2 tc2 = MODE_IX
    ∧ getLockMode sT14 3 globalResId = MODE_IX
    ∧ getLockMode sT14 3 tdb = MODE_IX
    ∧ getLockMode sT14 3 tc3 = MODE_IX
    ∧ (lockGlobalComplete sT14 4 (some 0)).1 = LOCK_OK
    ∧ (lockGlobalComplete sT14 5 (some 0)).1 = LOCK_OK := by
  and_intros <;> decide

/-- C7: at `endWriteUnitOfWork` every resource with nonzero
`unlockPending` is released exactly once per pending count and the counter
reset to zero, regardless of the recursion count at that moment, and a
lock converted while pending-unlock remains held at the new, converted
mode until end of scope. For every recursion surplus `k`: a Locker that
acquired R in IX (once plus `k` recursive times), then inside a write
scope deferred one unlock, converted to X and deferred a second unlock,
holds R fully in X with `unlockPending = 2` until `endWriteUnitOfWork`;
the scope end performs exactly two releases — with `k = 0` (the source
test) R ends unlocked (mode None, request gone), with surplus `k = j + 1`
R stays held at the converted mode X with `unlockPending = 0` and
recursion `j + 1`. -/
theorem C7_end_wuow_releases_once_per_pending :
    (∀ k : Nat,
      (unlock (cS2 k) 1 tcoll).1 = false
      ∧ (getRequest (cS3 k) 1 tcoll).map (·.unlockPending) = some 1
      ∧ numResourcesToUnlockAtEndUnitOfWorkForTest (cS3 k) 1 = 1
      ∧ (lock (cS3 k) 1 tcoll MODE_X none).1 = LOCK_OK
      ∧ getLockMode (cS4 k) 1 tcoll = MODE_X
      ∧ (getRequest (cS4 k) 1 tcoll).map (·.unlockPending) = some 1
      ∧ (unlock (cS4 k) 1 tcoll).1 = false
      ∧ (getRequest (cS5 k) 1 tcoll).map (·.unlockPending) = some 2
      ∧ getLockMode (cS5 k) 1 tcoll = MODE_X
      ∧ numResourcesToUnlockAtEndUnitOfWorkForTest (cS6 k) 1 = 0)
    ∧ (getRequest (cS6 0) 1 tcoll = none
      ∧ getLockMode (cS6 0) 1 tcoll = MODE_NONE
      ∧ isLockHeldForMode (cS6 0) 1 tcoll MODE_NONE = true)
    ∧ (∀ j : Nat,
      getLockMode (cS6 (j + 1)) 1 tcoll = MODE_X
      ∧ (getRequest (cS6 (j + 1)) 1 tcoll).map (·.unlockPending) = some 0
      ∧ (getRequest (cS6 (j + 1)) 1 tcoll).map (·.recursiveCount) = some (j + 1)) := by
  have h2 : ∀ k : Nat, cS2 k = wuSt (k + 1) 0 MODE_IX cIX 1 0 := by
    intro k
    show beginWriteUnitOfWork (cS1 k) 1 = _
    rw [cS1_eq, begin_wuSt]
  have h3 : ∀ k : Nat, cS3 k = wuSt (k + 1) 1 MODE_IX cIX 1 1 := by
    intro k
    show (unlock (cS2 k) 1 tcoll).2 = _
    rw [h2 k, unlock_wuSt_first]
  have h4 : ∀ k : Nat, cS4 k = wuSt (k + 2) 1 MODE_X cX 1 1 := by
    intro k
    show (lock (cS3 k) 1 tcoll MODE_X none).2 = _
    rw [h3 k, convert_wuSt]
    rfl
  have h5 : ∀ k : Nat, cS5 k = wuSt (k + 2) 2 MODE_X cX 1 1 := by
    intro k
    show (unlock (cS4 k) 1 tcoll).2 = _
    rw [h4 k, unlock_wuSt_second]
  have h60 : cS6 0 = wuDone := by
    show endWriteUnitOfWork (cS5 0) 1 = _
    rw [h5 0, end_wuSt_exact]
  have h6s : ∀ j : Nat, cS6 (j + 1) = wuSt (j + 1) 0 MODE_X cX 0 0 := by
    intro j
    show endWriteUnitOfWork (cS5 (j + 1)) 1 = _
    rw [h5 (j + 1)]
    exact end_wuSt_surplus j cX
  refine ⟨fun k => ?_, ?_, fun j => ?_⟩
  · refine ⟨?_, ?_, ?_, ?_, ?_, ?_, ?_, ?_, ?_, ?_⟩
    · rw [h2 k, unlock_wuSt_first]
    · rw [h3 k]
      rfl
    · rw [h3 k]
      rfl
    · rw [h3 k, convert_wuSt]
    · rw [h4 k]
      rfl
    · rw [h4 k]
      rfl
    · rw [h4 k, unlock_wuSt_second]
    · rw [h5 k]
      rfl
    · rw [h5 k]
      rfl
    · cases k with
      | zero => rw [h60]; rfl
      | succ j => rw [h6s j]; rfl
  · rw [h60]
    exact ⟨rfl, rfl, rfl⟩
  · rw [h6s j]
    exact ⟨rfl, rfl, rfl⟩

/-- C5: round trip of save/restore for a Locker holding an arbitrary set
S of (resource, mode) pairs — the global resource at `gm` plus any list of
distinct non-global resources at their paired modes.
`saveLockStateAndUnlock` records exactly the pairs of S (the global mode
in the snapshot's global slot, the rest in acquisition order) and leaves
the Locker holding nothing; `restoreLockState` re-acquires exactly the
pairs of S in the same relative order starting with the global resource
(restoring from the empty state or from the post-save state produce the
identical lock state, `buildState gm pairs`); afterwards every lock is
releasable normally — each unlock returns true and the table ends empty. -/
theorem C5_save_restore_round_trip (gm : LockMode) (pairs : List (ResourceId × LockMode))
    (hnd : (pairs.map (·.1)).Nodup) (hng : ∀ rm ∈ pairs, ¬ rm.1 = globalResId) :
    restoreLockState initialState 1 ⟨gm, pairs⟩ = buildState gm pairs
    ∧ getLockMode (buildState gm pairs) 1 globalResId = gm
    ∧ (∀ rm ∈ pairs, getLockMode (buildState gm pairs) 1 rm.1 = rm.2)
    ∧ saveLockStateAndUnlock (buildState gm pairs) 1 = (true, ⟨gm, pairs⟩, gmReleased)
    ∧ (∀ rm ∈ pairs, getLockMode gmReleased 1 rm.1 = MODE_NONE)
    ∧ isLocked gmReleased 1 = false
    ∧ restoreLockState gmReleased 1 ⟨gm, pairs⟩ = buildState gm pairs
    ∧ unlockAll (buildState gm pairs) (pairs.map (·.1)) = (true, buildState gm [])
    ∧ unlockGlobal (buildState gm []) 1 = (true, gmReleased)
    ∧ gmReleased.heads = [] := by
  refine ⟨restore_builds gm pairs initialState (congrArg Prod.snd (lockGlobal_fresh gm)) hnd hng,
    rfl, ?_, save_buildState gm pairs hnd hng, ?_, rfl,
    restore_builds gm pairs gmReleased (congrArg Prod.snd (lockGlobal_released gm)) hnd hng,
    unlockAll_buildState gm pairs hnd hng, ?_, rfl⟩
  · intro rm hrm
    exact getLockMode_buildState hnd hrm (hng rm hrm)
  · intro rm hrm
    rfl
  · have := unlockGlobal_buildState gm [] (by simp)
    simpa using this

/-- Witness for C5 at the source test's concrete inputs: global IX plus a
database in IX and a collection in X. -/
theorem C5_save_restore_round_trip_witness :
    restoreLockState initialState 1 ⟨MODE_IX, [(rdb, MODE_IX), (tcoll, MODE_X)]⟩
        = buildState MODE_IX [(rdb, MODE_IX), (tcoll, MODE_X)]
    ∧ getLockMode (buildState MODE_IX [(rdb, MODE_IX), (tcoll, MODE_X)]) 1 globalResId = MODE_IX
    ∧ (∀ rm ∈ [(rdb, MODE_IX), (tcoll, MODE_X)],
        getLockMode (buildState MODE_IX [(rdb, MODE_IX), (tcoll, MODE_X)]) 1 rm.1 = rm.2)
    ∧ saveLockStateAndUnlock (buildState MODE_IX [(rdb, MODE_IX), (tcoll, MODE_X)]) 1
        = (true, ⟨MODE_IX, [(rdb, MODE_IX), (tcoll, MODE_X)]⟩, gmReleased)
    ∧ (∀ rm ∈ [(rdb, MODE_IX), (tcoll, MODE_X)], getLockMode gmReleased 1 rm.1 = MODE_NONE)
    ∧ isLocked gmReleased 1 = false
    ∧ restoreLockState gmReleased 1 ⟨MODE_IX, [(rdb, MODE_IX), (tcoll, MODE_X)]⟩
        = buildState MODE_IX [(rdb, MODE_IX), (tcoll, MODE_X)]
    ∧ unlockAll (buildState MODE_IX [(rdb, MODE_IX), (tcoll, MODE_X)]) [rdb, tcoll]
        = (true, buildState MODE_IX [])
    ∧ unlockGlobal (buildState MODE_IX []) 1 = (true, gmReleased)
    ∧ gmReleased.heads = [] :=
  C5_save_restore_round_trip MODE_IX [(rdb, MODE_IX), (tcoll, MODE_X)]
    (by decide) (by decide)

/-- C2: inside a write unit of work, an unlock of a resource held once in
IX or X (or in IS/S with the shared-locks-two-phase flag set) returns
false, bumps that request's `unlockPending` to 1 and leaves the held mode
observable through `getLockMode` unchanged until `endWriteUnitOfWork`,
after which it is None; without the flag, an unlock of an IS or S lock
returns true and releases immediately. -/
theorem C2_two_phase_unlock (m : LockMode) (b : Bool) :
    ((m = MODE_IX ∨ m = MODE_X ∨ (b = true ∧ (m = MODE_IS ∨ m = MODE_S))) →
      (unlock (twoPhaseScenario m b) 1 tcoll).1 = false
      ∧ (getRequest (unlock (twoPhaseScenario m b) 1 tcoll).2 1 tcoll).map
          (·.unlockPending) = some 1
      ∧ getLockMode (unlock (twoPhaseScenario m b) 1 tcoll).2 1 tcoll = m
      ∧ getLockMode
          (endWriteUnitOfWork (unlock (twoPhaseScenario m b) 1 tcoll).2 1) 1 tcoll = MODE_NONE)
    ∧ ((m = MODE_IS ∨ m = MODE_S) ∧ b = false →
      (unlock (twoPhaseScenario m b) 1 tcoll).1 = true
      ∧ getLockMode (unlock (twoPhaseScenario m b) 1 tcoll).2 1 tcoll = MODE_NONE) := by
  cases m <;> cases b <;> exact ⟨by decide, by decide⟩

/-- Witness for C2 at concrete inputs: an X unlock inside a write scope is
deferred; an S unlock without the shared-locks flag releases at once. -/
theorem C2_two_phase_unlock_witness :
    ((unlock (twoPhaseScenario MODE_X false) 1 tcoll).1 = false
      ∧ (getRequest (unlock (twoPhaseScenario MODE_X false) 1 tcoll).2 1 tcoll).map
          (·.unlockPending) = some 1
      ∧ getLockMode (unlock (twoPhaseScenario MODE_X false) 1 tcoll).2 1 tcoll = MODE_X
      ∧ getLockMode
          (endWriteUnitOfWork (unlock (twoPhaseScenario MODE_X false) 1 tcoll).2 1) 1 tcoll
          = MODE_NONE)
    ∧ ((unlock (twoPhaseScenario MODE_S false) 1 tcoll).1 = true
      ∧ getLockMode (unlock (twoPhaseScenario MODE_S false) 1 tcoll).2 1 tcoll = MODE_NONE) :=
  ⟨(C2_two_phase_unlock MODE_X false).1 (Or.inr (Or.inl rfl)),
   (C2_two_phase_unlock MODE_S false).2 ⟨Or.inr rfl, rfl⟩⟩

end LockMgr
